import Mathlib

/-!
Attendance server (`server.js`): query and aggregation handlers.

A shallow embedding of the three request handlers of `server.js`

* `POST /api/attendance`        (`postHandler`),
* `GET /api/attendance`         (`buildQuery`, `listLimit`, `listHandler`),
* `GET /api/attendance/stats`   (`statsHandler`),

together with the parts of the JavaScript runtime they call (`parseInt`, the `||`
default idiom, the `Date` object) and a model of the aggregation pipeline the
stats handler sends to the record store.

Conventions.

* A JavaScript Number that is the result of `parseInt` is `Option Int`; `none` is `NaN`
  and `-0` is identified with `0` (both are falsy).  Rounding of integers above `2^53`
  to the nearest double is not represented.
* A `Date` is its time value, `Option Int` in milliseconds since the epoch; `none` is
  the Invalid Date (`NaN`).  Every operation clips with `TimeClip` as ECMAScript does.
* A query-string parameter is `Option String`; `none` is `undefined`.
* Strings produced by `Date` are lists of characters until they are compared.
* The local time zone of the server process is a parameter (`Zone`): the handler reads
  and sets the day of the month in local time (`getDate`, `setDate`) while everything
  else is in UTC.  The positive results are for zones with a constant offset
  (`fixedZone`); `easternFall2024` is a zone with a change of offset.
* The record store is a parameter of the handlers (`aggregate`, `find`, `save`);
  `runPipeline` is the aggregation pipeline of the stats handler run on a list of records.
-/

namespace Server


/-! ## `parseInt` and the `||` default -/

/-- White space and line terminators removed by `parseInt` before it reads a number
(ECMAScript `StrWhiteSpaceChar`). -/
def isStrWhiteSpaceChar (c : Char) : Bool :=
  let n := c.toNat
  n == 0x09 || n == 0x0A || n == 0x0B || n == 0x0C || n == 0x0D || n == 0x20 || n == 0xA0
    || n == 0x1680 || (0x2000 ≤ n && n ≤ 0x200A) || n == 0x2028 || n == 0x2029
    || n == 0x202F || n == 0x205F || n == 0x3000 || n == 0xFEFF

/-- Value of `c` as a digit in the given radix, if it is one. -/
def digitValue (radix : Nat) (c : Char) : Option Nat :=
  let n := c.toNat
  let v : Option Nat :=
    if 48 ≤ n ∧ n ≤ 57 then some (n - 48)
    else if 97 ≤ n ∧ n ≤ 122 then some (n - 87)
    else if 65 ≤ n ∧ n ≤ 90 then some (n - 55)
    else none
  match v with
  | some d => if d < radix then some d else none
  | none => none

/-- Digits of the longest run of radix digits that `cs` starts with. -/
def takeDigits (radix : Nat) : List Char → List Nat
  | [] => []
  | c :: cs =>
    match digitValue radix c with
    | some d => d :: takeDigits radix cs
    | none => []

/-- Integer denoted by a list of digits, most significant first. -/
def digitsValue (radix : Nat) (ds : List Nat) : Nat :=
  ds.foldl (fun acc d => acc * radix + d) 0

/-- Sign read by `parseInt`: -1 when the string starts with `-`. -/
def signOf : List Char → Int
  | '-' :: _ => -1
  | _ => 1

/-- The string without its leading `+` or `-`. -/
def dropSign : List Char → List Char
  | '+' :: r => r
  | '-' :: r => r
  | s => s

/-- Radix and digits to read: radix 16 after `0x` or `0X`, else radix 10. -/
def radixAndRest : List Char → Nat × List Char
  | '0' :: 'x' :: r => (16, r)
  | '0' :: 'X' :: r => (16, r)
  | s => (10, s)

/-- ECMAScript `parseInt(string)` with no radix argument, on the characters of the
string: skip white space, read a sign, switch to radix 16 after `0x` or `0X`, read the
longest run of digits; `none` (NaN) when that run is empty. -/
def parseIntChars (input : List Char) : Option Int :=
  let s := input.dropWhile isStrWhiteSpaceChar
  let rs := radixAndRest (dropSign s)
  let z := takeDigits rs.1 rs.2
  if z.isEmpty then none else some (signOf s * (digitsValue rs.1 z : Int))

/-- The call `parseInt(v)` on a query parameter; an absent parameter is `undefined`,
which `parseInt` first converts to the string `"undefined"`. -/
def parseInt (v : Option String) : Option Int :=
  match v with
  | none => parseIntChars "undefined".data
  | some s => parseIntChars s.data

/-- The expression `x || d` for a Number `x`: `d` when `x` is `NaN` or zero. -/
def orDefault (x : Option Int) (d : Int) : Int :=
  match x with
  | some n => if n = 0 then d else n
  | none => d

/-- Truthiness of a query parameter: present and not the empty string. -/
def truthy (v : Option String) : Bool :=
  match v with
  | some s => s.data ≠ []
  | none => false

/-! ## ECMAScript time values and the calendar -/

def msPerDay : Int := 86400000

/-- Largest magnitude of a time value: 100,000,000 days. -/
def maxTimeValue : Int := 8640000000000000

/-- ECMAScript `TimeClip`: the Invalid Date when the magnitude exceeds `8.64e15`. -/
def TimeClip (t : Int) : Option Int :=
  if -maxTimeValue ≤ t ∧ t ≤ maxTimeValue then some t else none

def Day (t : Int) : Int := t / msPerDay

def TimeWithinDay (t : Int) : Int := t % msPerDay

/-- Day number of 1 January of year `y`. -/
def DayFromYear (y : Int) : Int :=
  365 * (y - 1970) + (y - 1969) / 4 - (y - 1901) / 100 + (y - 1601) / 400

def DaysInYear (y : Int) : Int :=
  if y % 4 ≠ 0 then 365
  else if y % 100 ≠ 0 then 366
  else if y % 400 ≠ 0 then 365
  else 366

/-- The year containing day number `day`: the largest `y` with `DayFromYear y ≤ day`,
found from the mean year length and corrected by at most one
(see `yearFromDay_spec`). -/
def yearFromDay (day : Int) : Int :=
  let y := 1970 + (400 * day) / 146097
  if day < DayFromYear y then y - 1
  else if DayFromYear (y + 1) ≤ day then y + 1
  else y

def YearFromTime (t : Int) : Int := yearFromDay (Day t)

def InLeapYear (t : Int) : Int := if DaysInYear (YearFromTime t) = 366 then 1 else 0

def DayWithinYear (t : Int) : Int := Day t - DayFromYear (YearFromTime t)

/-- Month number (0 = January) of the day `d` of a year, `l` being 1 in a leap year. -/
def monthFromDayInYear (d l : Int) : Int :=
  if d < 31 then 0
  else if d < 59 + l then 1
  else if d < 90 + l then 2
  else if d < 120 + l then 3
  else if d < 151 + l then 4
  else if d < 181 + l then 5
  else if d < 212 + l then 6
  else if d < 243 + l then 7
  else if d < 273 + l then 8
  else if d < 304 + l then 9
  else if d < 334 + l then 10
  else 11

def MonthFromTime (t : Int) : Int :=
  monthFromDayInYear (DayWithinYear t) (InLeapYear t)

/-- Day within the year on which month `m` (0 = January) starts. -/
def monthStart (m l : Int) : Int :=
  if m = 0 then 0
  else if m = 1 then 31
  else if m = 2 then 59 + l
  else if m = 3 then 90 + l
  else if m = 4 then 120 + l
  else if m = 5 then 151 + l
  else if m = 6 then 181 + l
  else if m = 7 then 212 + l
  else if m = 8 then 243 + l
  else if m = 9 then 273 + l
  else if m = 10 then 304 + l
  else 334 + l

/-- Day of the month, 1 to 31. -/
def DateFromTime (t : Int) : Int :=
  DayWithinYear t - monthStart (MonthFromTime t) (InLeapYear t) + 1

def HourFromTime (t : Int) : Int := (t / 3600000) % 24

def MinFromTime (t : Int) : Int := (t / 60000) % 60

def SecFromTime (t : Int) : Int := (t / 1000) % 60

def msFromTime (t : Int) : Int := t % 1000

/-- ECMAScript `MakeDay` on integral arguments: the day number of the first of the
month, `month` being carried into the year, plus `date - 1`. -/
def MakeDay (year month date : Int) : Int :=
  let ym := year + month / 12
  let mn := month % 12
  DayFromYear ym + monthStart mn (if DaysInYear ym = 366 then 1 else 0) + date - 1

def MakeDate (day time : Int) : Int := day * msPerDay + time

def MakeTime (hour min sec ms : Int) : Int :=
  hour * 3600000 + min * 60000 + sec * 1000 + ms

/-! ## The server's local time zone -/

/-- The local time zone of the server process, as ECMAScript sees it:
`utcOffset t` is `LocalTZA(t, true)`, the offset in milliseconds in force at the UTC
instant `t`; `localOffset t` is `LocalTZA(t, false)`, the offset used to read the local
time `t`. -/
structure Zone where
  utcOffset : Int → Int
  localOffset : Int → Int

/-- A zone whose offset from UTC never changes (`c` milliseconds east of UTC). -/
def fixedZone (c : Int) : Zone := ⟨fun _ => c, fun _ => c⟩

def LocalTime (z : Zone) (t : Int) : Int := t + z.utcOffset t

def UTC (z : Zone) (t : Int) : Int := t - z.localOffset t

/-! ## `Date` methods used by the handlers -/

/-- The method `Date.prototype.setUTCHours(hour, min, sec, ms)`; returns the new time value. -/
def setUTCHours (t : Option Int) (hour min sec ms : Int) : Option Int :=
  match t with
  | none => none
  | some t => TimeClip (MakeDate (Day t) (MakeTime hour min sec ms))

/-- The method `Date.prototype.getDate()`: day of the month in local time, `NaN` on the
Invalid Date. -/
def getDate (z : Zone) (t : Option Int) : Option Int :=
  match t with
  | none => none
  | some t => some (DateFromTime (LocalTime z t))

/-- The method `Date.prototype.setDate(dt)`: replaces the day of the month of the local
date, keeping the local time of day; returns the new time value. -/
def setDate (z : Zone) (t : Option Int) (dt : Option Int) : Option Int :=
  match t with
  | none => none
  | some t =>
    match dt with
    | none => none
    | some dt =>
      let lt := LocalTime z t
      let newDate := MakeDate (MakeDay (YearFromTime lt) (MonthFromTime lt) dt) (TimeWithinDay lt)
      TimeClip (UTC z newDate)

/-- Number subtraction `a - b` where `a` may be `NaN`. -/
def numSub (a : Option Int) (b : Int) : Option Int := a.map (fun x => x - b)

/-- Number addition `a + b` where `a` may be `NaN`. -/
def numAdd (a : Option Int) (b : Int) : Option Int := a.map (fun x => x + b)

/-- Decimal digit character of `n % 10`. -/
def digitChar (n : Nat) : Char := Char.ofNat (48 + n % 10)

def pad2 (n : Nat) : List Char := [digitChar (n / 10), digitChar n]

def pad3 (n : Nat) : List Char := [digitChar (n / 100), digitChar (n / 10), digitChar n]

def pad4 (n : Nat) : List Char :=
  [digitChar (n / 1000), digitChar (n / 100), digitChar (n / 10), digitChar n]

def pad6 (n : Nat) : List Char :=
  [digitChar (n / 100000), digitChar (n / 10000), digitChar (n / 1000), digitChar (n / 100),
    digitChar (n / 10), digitChar n]

/-- Year field of `toISOString`: four digits for the years 0 to 9999, otherwise a sign
and six digits. -/
def isoYear (y : Int) : List Char :=
  if 0 ≤ y ∧ y ≤ 9999 then pad4 y.toNat
  else (if y < 0 then '-' else '+') :: pad6 y.natAbs

/-- The characters `YYYY-MM-DDTHH:mm:ss.sssZ` that `toISOString` produces for a time
value in range. -/
def isoString (t : Int) : List Char :=
  isoYear (YearFromTime t) ++ '-' :: pad2 (MonthFromTime t + 1).toNat
    ++ '-' :: pad2 (DateFromTime t).toNat
    ++ 'T' :: pad2 (HourFromTime t).toNat
    ++ ':' :: pad2 (MinFromTime t).toNat
    ++ ':' :: pad2 (SecFromTime t).toNat
    ++ '.' :: pad3 (msFromTime t).toNat ++ ['Z']

/-- The method `Date.prototype.toISOString()`; `none` is the `RangeError` thrown on the
Invalid Date. -/
def toISOString (t : Option Int) : Option (List Char) :=
  match t with
  | none => none
  | some t => some (isoString t)

/-- The call `s.slice(0, 10)`. -/
def slice10 (s : List Char) : String := String.mk (s.take 10)

/-! ## `GET /api/attendance/stats` -/

/-- One group produced by the aggregation pipeline: `_id` is the date string,
`count` the number of records grouped under it. -/
structure AggRow where
  _id : String
  count : Nat
deriving DecidableEq, Repr

/-- One element of the array the stats handler answers with. -/
structure DaySeriesPoint where
  date : String
  count : Nat
deriving DecidableEq, Repr

/-- Response of the stats handler: `res.json(out)` or `res.status(500)`. -/
inductive StatsResponse where
  | json (out : List DaySeriesPoint)
  | error500
deriving DecidableEq, Repr

/-- Line 67: `const days = parseInt(req.query.days) || 14`. -/
def statsDays (daysParam : Option String) : Int :=
  orDefault (parseInt daysParam) 14

/-- Lines 68 to 70: `start = new Date(); start.setUTCHours(0,0,0,0);
start.setDate(start.getDate() - (days - 1))`, with `now` the reading of the clock. -/
def statsStart (z : Zone) (now : Int) (days : Int) : Option Int :=
  let start := TimeClip now
  let start := setUTCHours start 0 0 0 0
  setDate z start (numSub (getDate z start) (days - 1))

/-- Lines 88 to 90: `d = new Date(start); d.setDate(start.getDate() + i);
s = d.toISOString().slice(0,10)`; `none` when `toISOString` throws. -/
def loopDate (z : Zone) (start : Option Int) (i : Int) : Option String :=
  let d := start
  let d := setDate z d (numAdd (getDate z start) i)
  (toISOString d).map slice10

/-- Lines 91 and 92: `found = agg.find(a => a._id === s)` and the pushed object
`{ date: s, count: found ? found.count : 0 }`. -/
def loopPoint (agg : List AggRow) (s : String) : DaySeriesPoint :=
  let found := agg.find? (fun a => a._id == s)
  { date := s
    count := match found with
      | some f => f.count
      | none => 0 }

/-- The loop of lines 87 to 93, `for (let i = 0; i < days; i++)`, started at `i` with
the array `out`; the first argument bounds the number of iterations and `none` is
an exception thrown by the body. -/
def densifyLoop (z : Zone) (start : Option Int) (agg : List AggRow) (days : Int) :
    Nat → Int → List DaySeriesPoint → Option (List DaySeriesPoint)
  | 0, _, out => some out
  | fuel + 1, i, out =>
    if i < days then
      match loopDate z start i with
      | none => none
      | some s => densifyLoop z start agg days fuel (i + 1) (out ++ [loopPoint agg s])
    else some out

/-- Lines 86 to 93: the loop run from `i = 0` on the empty array; `days.toNat`
iterations are all the loop can make. -/
def densify (z : Zone) (start : Option Int) (agg : List AggRow) (days : Int) :
    Option (List DaySeriesPoint) :=
  densifyLoop z start agg days days.toNat 0 []

/-- The handler of `GET /api/attendance/stats` (lines 65 to 100).  `aggregate start` is
what `Attendance.aggregate(pipeline)` resolves to for the pipeline whose `$match` bound is
`start`; `none` is a rejected promise. -/
def statsHandler (z : Zone) (now : Int) (aggregate : Option Int → Option (List AggRow))
    (daysParam : Option String) : StatsResponse :=
  let days := statsDays daysParam
  let start := statsStart z now days
  match aggregate start with
  | none => StatsResponse.error500
  | some agg =>
    match densify z start agg days with
    | none => StatsResponse.error500
    | some out => StatsResponse.json out

/-! ## The aggregation pipeline as the record store evaluates it -/

/-- A stored attendance record (schema of lines 19 to 24); `timestamp` is a time value
in milliseconds. -/
structure AttendanceRecord where
  deviceId : String
  deviceName : Option String
  timestamp : Int
  battery : Option Int
deriving DecidableEq, Repr

/-- The operator `$dateToString` with format `%Y-%m-%d` and no time zone (UTC).  The
store formats `%Y` with four digits and raises an error for a year outside 0 to 9999;
`none` is that error. -/
def dateToString (t : Int) : Option String :=
  let y := YearFromTime t
  if 0 ≤ y ∧ y ≤ 9999 then
    some (String.mk (pad4 y.toNat ++ '-' :: pad2 (MonthFromTime t + 1).toNat
      ++ '-' :: pad2 (DateFromTime t).toNat))
  else none

/-- Adds one to the count of the group `k`, creating it when missing. -/
def bump (k : String) : List AggRow → List AggRow
  | [] => [⟨k, 1⟩]
  | a :: rest => if a._id = k then ⟨k, a.count + 1⟩ :: rest else a :: bump k rest

/-- The stage `$group` with `count: { $sum: 1 }`: one row for each distinct key. -/
def groupCount (keys : List String) : List AggRow :=
  keys.foldl (fun acc k => bump k acc) []

/-- Binary comparison of two strings, as the store orders them in `$sort`. -/
def charsLe : List Char → List Char → Bool
  | [], _ => true
  | _ :: _, [] => false
  | a :: as, b :: bs =>
    if a.toNat < b.toNat then true
    else if b.toNat < a.toNat then false
    else charsLe as bs

/-- The stage `$sort: { _id: 1 }`. -/
def sortById (rows : List AggRow) : List AggRow :=
  rows.insertionSort (fun a b => charsLe a._id.data b._id.data = true)

/-- The group keys `$dateToString` gives for the documents, in order; `none` when one of
them cannot be formatted. -/
def groupKeys : List AttendanceRecord → Option (List String)
  | [] => some []
  | r :: rest =>
    match dateToString r.timestamp with
    | none => none
    | some k =>
      match groupKeys rest with
      | none => none
      | some ks => some (k :: ks)

/-- The pipeline of lines 72 to 82 run on the collection `store`: `$match` keeps
the records with `timestamp >= start`, `$group` counts them by date string, `$sort`
orders the rows.  The result is `none` when the store rejects the query because
`$dateToString` cannot format a date.  An Invalid Date bound reaches the store as the
epoch, its time value `NaN` being written as 0; with `days >= 1` the handler answers 500
in that case whatever the store does, the loop throwing on its first date. -/
def runPipeline (store : List AttendanceRecord) (start : Option Int) :
    Option (List AggRow) :=
  let st : Int := match start with
    | some t => t
    | none => 0
  let matched := store.filter (fun r => st ≤ r.timestamp)
  match groupKeys matched with
  | none => none
  | some keys => some (sortById (groupCount keys))

/-! ## `GET /api/attendance` -/

/-- The object `q.timestamp`: the keys `$gte` and `$lte`, each absent or a `Date`
(inclusive lower and upper bound). -/
structure TimestampBounds where
  gte : Option (Option Int)
  lte : Option (Option Int)
deriving DecidableEq, Repr

/-- The filter object `q` of lines 49 to 53. -/
structure QueryFilter where
  deviceId : Option String
  timestamp : Option TimestampBounds
deriving DecidableEq, Repr

/-- The call `new Date(v)` on a query parameter, `parse` being `Date.parse`. -/
def newDate (parse : String → Option Int) (v : Option String) : Option Int :=
  match v with
  | none => none
  | some s => (parse s).bind TimeClip

/-- Lines 49 to 53, statement by statement; `none` is the `TypeError` of an assignment
to a property of `undefined`. -/
def buildQuery (parse : String → Option Int) (fromQ toQ deviceId : Option String) :
    Option QueryFilter :=
  let q : QueryFilter := { deviceId := none, timestamp := none }
  let q := if truthy deviceId then { q with deviceId := deviceId } else q
  let q := if truthy fromQ || truthy toQ then
      { q with timestamp := some { gte := none, lte := none } } else q
  let q : Option QueryFilter :=
    if truthy fromQ then
      match q.timestamp with
      | none => none
      | some ts => some { q with timestamp := some { ts with gte := some (newDate parse fromQ) } }
    else some q
  match q with
  | none => none
  | some q =>
    if truthy toQ then
      match q.timestamp with
      | none => none
      | some ts => some { q with timestamp := some { ts with lte := some (newDate parse toQ) } }
    else some q

/-- Line 55: `const L = parseInt(limit) || 100`. -/
def listLimit (limit : Option String) : Int :=
  orDefault (parseInt limit) 100

/-- Response of the list handler. -/
inductive ListResponse where
  | json (results : List AttendanceRecord)
  | error500
deriving DecidableEq, Repr

/-- The handler of `GET /api/attendance` (lines 46 to 62); `find q L` is what
`Attendance.find(q).sort({ timestamp: -1 }).limit(L).lean()` resolves to. -/
def listHandler (parse : String → Option Int)
    (find : QueryFilter → Int → Option (List AttendanceRecord))
    (fromQ toQ deviceId limit : Option String) : ListResponse :=
  match buildQuery parse fromQ toQ deviceId with
  | none => ListResponse.error500
  | some q =>
    match find q (listLimit limit) with
    | none => ListResponse.error500
    | some results => ListResponse.json results

/-! ## `POST /api/attendance` -/

/-- A JSON value of the request body; numbers are kept to the integers. -/
inductive Json where
  | null
  | bool (b : Bool)
  | num (n : Int)
  | str (s : String)
  | arr (items : List Json)
  | obj (fields : List (String × Json))

/-- Truthiness of a destructured body field; `none` is `undefined`. -/
def jsonTruthy (v : Option Json) : Bool :=
  match v with
  | none => false
  | some Json.null => false
  | some (Json.bool b) => b
  | some (Json.num n) => n ≠ 0
  | some (Json.str s) => s.data ≠ []
  | some (Json.arr _) => true
  | some (Json.obj _) => true

/-- The four fields the handler destructures from `req.body`. -/
structure PostBody where
  deviceId : Option Json
  deviceName : Option Json
  timestamp : Option Json
  battery : Option Json

/-- The document built on line 36, before the store validates it. -/
structure NewEntry where
  deviceId : Option Json
  deviceName : Option Json
  timestamp : Option Int
  battery : Option Json

/-- Response of the write handler, `saved` being the stored document. -/
inductive PostResponse (σ : Type) where
  | created (saved : σ)
  | badRequest
  | error500

/-- The handler of `POST /api/attendance` (lines 31 to 43) with the store as explicit
state of type `S`: `toDate` is `new Date(timestamp)` on a JSON value and `save entry st`
is `entry.save()`, giving the saved document and the new store, or `none` when it rejects. -/
def postHandler {S σ : Type} (toDate : Json → Option Int)
    (save : NewEntry → S → Option (σ × S)) (body : PostBody) (st : S) :
    PostResponse σ × S :=
  if !jsonTruthy body.deviceId || !jsonTruthy body.timestamp then
    (PostResponse.badRequest, st)
  else
    let entry : NewEntry :=
      { deviceId := body.deviceId
        deviceName := body.deviceName
        timestamp := match body.timestamp with
          | some v => toDate v
          | none => none
        battery := body.battery }
    match save entry st with
    | some (saved, st') => (PostResponse.created saved, st')
    | none => (PostResponse.error500, st)

/-! ## Notions used in the statements -/

/-- The string has no decimal digit where a number would start, that is after the
leading white space and one sign: a non-numeric parameter. -/
def nonNumeric (s : String) : Prop :=
  match dropSign (s.data.dropWhile isStrWhiteSpaceChar) with
  | [] => True
  | c :: _ => digitValue 10 c = none

instance (s : String) : Decidable (nonNumeric s) := by
  unfold nonNumeric; split <;> infer_instance


/-- The time value `t` is in the range of `Date`. -/
def validTime (t : Int) : Prop := -maxTimeValue ≤ t ∧ t ≤ maxTimeValue

instance (t : Int) : Decidable (validTime t) := by unfold validTime; infer_instance

/-- The date strings the loop computes for `i, i + 1, ...`, `n` of them; `none` when one
of them cannot be computed. -/
def datesFrom (z : Zone) (start : Option Int) : Int → Nat → Option (List String)
  | _, 0 => some []
  | i, n + 1 =>
    match loopDate z start i with
    | none => none
    | some s =>
      match datesFrom z start (i + 1) n with
      | none => none
      | some rest => some (s :: rest)

/-- The dates of the window of `days` days the loop walks through from `start`. -/
def windowDates (z : Zone) (start : Option Int) (days : Int) : Option (List String) :=
  datesFrom z start 0 days.toNat

/-- The string `YYYY-MM-DD` for the UTC calendar date of the time value `t`. -/
def ymdOfTime (t : Int) : String :=
  String.mk (pad4 (YearFromTime t).toNat ++ '-' :: pad2 (MonthFromTime t + 1).toNat
    ++ '-' :: pad2 (DateFromTime t).toNat)

/-- The string `YYYY-MM-DD` for the calendar day with day number `n` (days since
1970-01-01). -/
def ymd (n : Int) : String := ymdOfTime (n * msPerDay)

/-- Day numbers of the years 0000 to 9999: from 0000-01-01 to 9999-12-31. -/
def inYears (n : Int) : Prop := -719528 ≤ n ∧ n ≤ 2932896

instance (n : Int) : Decidable (inYears n) := by unfold inYears; infer_instance

/-- The ten characters the loop keeps of the ISO string of `t`. -/
def isoDate (t : Int) : String := slice10 (isoString t)

/-! ## A `Date.parse` for the interchange format -/

/-- Reads `n` decimal digits from the front of `cs`: their value and the rest. -/
def readDigits : Nat → List Char → Option (Nat × List Char)
  | 0, cs => some (0, cs)
  | _ + 1, [] => none
  | n + 1, c :: cs =>
    match digitValue 10 c with
    | none => none
    | some d =>
      match readDigits n cs with
      | none => none
      | some (v, rest) => some (d * 10 ^ n + v, rest)

/-- Time value of the UTC date and time given by its fields, `NaN` when a field is out
of bounds. -/
def utcFields (y mo d h mi s ms : Nat) : Option Int :=
  if 1 ≤ mo ∧ mo ≤ 12 ∧ 1 ≤ d ∧ h ≤ 24 ∧ mi ≤ 59 ∧ s ≤ 59
      ∧ (h = 24 → mi = 0 ∧ s = 0 ∧ ms = 0)
      ∧ MakeDay y (mo - 1 : Nat) (d + 1 : Nat) ≤ MakeDay y (mo : Nat) 1 then
    some (MakeDate (MakeDay y (mo - 1 : Nat) d) (MakeTime h mi s ms))
  else none

/-- Time part after the `T`: `HH:mm`, `HH:mm:ss` or `HH:mm:ss.sss`, followed by `Z`. -/
def parseTimeZ (y mo d : Nat) (cs : List Char) : Option Int :=
  match readDigits 2 cs with
  | some (h, ':' :: cs) =>
    match readDigits 2 cs with
    | some (mi, ['Z']) => utcFields y mo d h mi 0 0
    | some (mi, ':' :: cs) =>
      match readDigits 2 cs with
      | some (s, ['Z']) => utcFields y mo d h mi s 0
      | some (s, '.' :: cs) =>
        match readDigits 3 cs with
        | some (ms, ['Z']) => utcFields y mo d h mi s ms
        | _ => none
      | _ => none
    | _ => none
  | _ => none

/-- A `Date.parse` that recognises the UTC forms of the ECMAScript date-time string
format with a four-digit year (`YYYY`, `YYYY-MM`, `YYYY-MM-DD`, and a date followed by
`THH:mm`, `THH:mm:ss` or `THH:mm:ss.sss` and `Z`) and nothing else: the forms every
engine reads alike.  Any other string is `NaN`. -/
def parseIsoUtc (s : String) : Option Int :=
  match readDigits 4 s.data with
  | some (y, []) => utcFields y 1 1 0 0 0 0
  | some (y, '-' :: cs) =>
    match readDigits 2 cs with
    | some (mo, []) => utcFields y mo 1 0 0 0 0
    | some (mo, '-' :: cs) =>
      match readDigits 2 cs with
      | some (d, []) => utcFields y mo d 0 0 0 0
      | some (d, 'T' :: cs) => parseTimeZ y mo d cs
      | _ => none
    | _ => none
  | _ => none

/-- The count the loop reads from `rows` for the date `s`: that of the first row with
that `_id`, or 0. -/
def lookupCount (rows : List AggRow) (s : String) : Nat :=
  match rows.find? (fun a => a._id == s) with
  | some f => f.count
  | none => 0

/-! ## Sample data for the scenarios -/

/-- The body of Scenario B: `timestamp` given, `deviceId` missing. -/
def bodyWithoutDeviceId : PostBody :=
  { deviceId := none
    deviceName := none
    timestamp := some (Json.num 1704283200123)
    battery := none }

/-- The store of Scenario A: two records on 2024-01-01 and one on 2024-01-03. -/
def scenarioA : List AttendanceRecord :=
  [⟨"dev1", none, 1704067200000, none⟩, ⟨"dev2", some "door", 1704110400000, some 80⟩,
    ⟨"dev1", none, 1704283200000, none⟩]

/-- A zone 4 hours west of UTC until 2024-11-03T06:00:00Z and 5 hours west from then
on: the end of daylight saving time of 2024 in the eastern United States, local times
before 02:00 of that day being read with the earlier offset. -/
def easternFall2024 : Zone :=
  { utcOffset := fun t => if t < 1730613600000 then -14400000 else -18000000
    localOffset := fun t => if t < 1730599200000 then -14400000 else -18000000 }

/-! ## `parseInt` -/

theorem radixAndRest_of_ne_zero (c : Char) (r : List Char) (h : c ≠ '0') :
    radixAndRest (c :: r) = (10, c :: r) := by
  unfold radixAndRest
  split
  · rename_i heq; exact absurd (List.cons.inj heq).1 h
  · rename_i heq; exact absurd (List.cons.inj heq).1 h
  · rfl

/-- A non-numeric parameter parses to `NaN`. -/
theorem parseInt_nonNumeric (s : String) (h : nonNumeric s) : parseInt (some s) = none := by
  unfold nonNumeric at h
  unfold parseInt parseIntChars
  simp only []
  generalize dropSign (s.data.dropWhile isStrWhiteSpaceChar) = body at h ⊢
  cases body with
  | nil => rfl
  | cons c r =>
    simp only at h
    have hc0 : c ≠ '0' := by
      intro e; subst e; revert h; decide
    rw [radixAndRest_of_ne_zero c r hc0]
    simp [takeDigits, h]

/-! ## The calendar -/

theorem DayFromYear_est_lo (day : Int) :
    DayFromYear (1970 + (400 * day) / 146097 - 1) ≤ day := by
  unfold DayFromYear; omega

theorem DayFromYear_est_hi (day : Int) :
    day < DayFromYear (1970 + (400 * day) / 146097 + 1 + 1) := by
  unfold DayFromYear; omega

theorem DayFromYear_lt (a b : Int) (h : a < b) : DayFromYear a < DayFromYear b := by
  unfold DayFromYear; omega

theorem DayFromYear_succ (y : Int) : DayFromYear (y + 1) = DayFromYear y + DaysInYear y := by
  unfold DayFromYear DaysInYear
  split_ifs <;> omega

/-- The year of a day is the one whose first day is the last not after it. -/
theorem yearFromDay_spec (day : Int) :
    DayFromYear (yearFromDay day) ≤ day ∧ day < DayFromYear (yearFromDay day + 1) := by
  unfold yearFromDay
  simp only []
  have h1 := DayFromYear_est_lo day
  have h2 := DayFromYear_est_hi day
  split
  · rw [Int.sub_add_cancel]; exact ⟨h1, by assumption⟩
  · split
    · exact ⟨by assumption, h2⟩
    · constructor <;> omega

theorem yearFromDay_unique (day y : Int) (h1 : DayFromYear y ≤ day)
    (h2 : day < DayFromYear (y + 1)) : yearFromDay day = y := by
  have hs := yearFromDay_spec day
  rcases lt_trichotomy (yearFromDay day) y with h | h | h
  · have : yearFromDay day + 1 ≤ y := by omega
    have := DayFromYear_lt (yearFromDay day) y h
    rcases eq_or_lt_of_le ‹yearFromDay day + 1 ≤ y› with e | l
    · rw [e] at hs; omega
    · have := DayFromYear_lt _ _ l; omega
  · exact h
  · have : y + 1 ≤ yearFromDay day := by omega
    rcases eq_or_lt_of_le this with e | l
    · rw [← e] at hs; omega
    · have := DayFromYear_lt _ _ l; omega

theorem yearFromDay_mono (a b : Int) (h : a ≤ b) : yearFromDay a ≤ yearFromDay b := by
  by_contra hc
  have ha := yearFromDay_spec a
  have hb := yearFromDay_spec b
  have : yearFromDay b + 1 ≤ yearFromDay a := by omega
  rcases eq_or_lt_of_le this with e | l
  · rw [e] at hb; omega
  · have := DayFromYear_lt _ _ l; omega

theorem DayWithinYear_range (t : Int) :
    0 ≤ DayWithinYear t ∧ DayWithinYear t < DaysInYear (YearFromTime t) := by
  have hs := yearFromDay_spec (Day t)
  rw [DayFromYear_succ] at hs
  unfold DayWithinYear YearFromTime
  omega

theorem monthFromDayInYear_range (d l : Int) :
    0 ≤ monthFromDayInYear d l ∧ monthFromDayInYear d l ≤ 11 := by
  generalize hm : monthFromDayInYear d l = m
  unfold monthFromDayInYear at hm
  repeat (first | omega | split at hm)

theorem monthFromDayInYear_mono (d1 d2 l : Int) (h : d1 ≤ d2) :
    monthFromDayInYear d1 l ≤ monthFromDayInYear d2 l := by
  generalize h1 : monthFromDayInYear d1 l = m1
  generalize h2 : monthFromDayInYear d2 l = m2
  unfold monthFromDayInYear at h1 h2
  repeat (first | omega | split at h1 | split at h2)

theorem MonthFromTime_range (t : Int) : 0 ≤ MonthFromTime t ∧ MonthFromTime t ≤ 11 :=
  monthFromDayInYear_range _ _

theorem InLeapYear_range (t : Int) : InLeapYear t = 0 ∨ InLeapYear t = 1 := by
  unfold InLeapYear; split <;> simp

theorem DateFromTime_range (t : Int) : 1 ≤ DateFromTime t ∧ DateFromTime t ≤ 31 := by
  have hd := DayWithinYear_range t
  have hl : DaysInYear (YearFromTime t) = 365 + InLeapYear t := by
    unfold InLeapYear DaysInYear
    split_ifs <;> omega
  have hl2 := InLeapYear_range t
  unfold DateFromTime MonthFromTime
  generalize DayWithinYear t = d at *
  generalize InLeapYear t = l at *
  generalize hm : monthFromDayInYear d l = m
  unfold monthFromDayInYear at hm
  unfold monthStart
  repeat (first | omega | split at hm)

/-- Rebuilding the day from the year and month of `t` and a day of the month `dt`. -/
theorem MakeDay_roundtrip (t dt : Int) :
    MakeDay (YearFromTime t) (MonthFromTime t) dt = Day t - DateFromTime t + dt := by
  have hm := MonthFromTime_range t
  unfold MakeDay DateFromTime
  have h1 : MonthFromTime t / 12 = 0 := by omega
  have h2 : MonthFromTime t % 12 = MonthFromTime t := by omega
  simp only [h1, h2, add_zero]
  unfold DayWithinYear InLeapYear
  omega

theorem Day_eq_MakeDay (t : Int) :
    Day t = MakeDay (YearFromTime t) (MonthFromTime t) (DateFromTime t) := by
  rw [MakeDay_roundtrip]; omega

theorem Day_add_TimeWithinDay (t : Int) : Day t * msPerDay + TimeWithinDay t = t := by
  unfold Day TimeWithinDay msPerDay; omega

theorem Day_mul_msPerDay (n : Int) : Day (n * msPerDay) = n := by
  unfold Day msPerDay; omega

theorem Day_add_days (t k : Int) : Day (t + k * msPerDay) = Day t + k := by
  unfold Day msPerDay; omega

theorem YearFromTime_Day (t : Int) : YearFromTime (Day t * msPerDay) = YearFromTime t := by
  unfold YearFromTime; rw [Day_mul_msPerDay]

theorem MonthFromTime_Day (t : Int) : MonthFromTime (Day t * msPerDay) = MonthFromTime t := by
  unfold MonthFromTime DayWithinYear InLeapYear
  rw [YearFromTime_Day, Day_mul_msPerDay]

theorem DateFromTime_Day (t : Int) : DateFromTime (Day t * msPerDay) = DateFromTime t := by
  unfold DateFromTime DayWithinYear InLeapYear
  rw [MonthFromTime_Day, YearFromTime_Day, Day_mul_msPerDay]

theorem monthFromDayInYear_monthStart (m l : Int) (hm : 0 ≤ m ∧ m ≤ 11) (hl : l = 0 ∨ l = 1) :
    monthFromDayInYear (monthStart m l) l = m := by
  obtain ⟨hlo, hhi⟩ := hm
  rcases hl with rfl | rfl <;> interval_cases m <;> decide

theorem monthStart_lt (m l : Int) (hm : 0 ≤ m ∧ m ≤ 11) (hl : l = 0 ∨ l = 1) :
    0 ≤ monthStart m l ∧ monthStart m l < 365 + l := by
  obtain ⟨hlo, hhi⟩ := hm
  rcases hl with rfl | rfl <;> interval_cases m <;> decide

/-- The day `MakeDay` finds for the first of a month is the one ECMAScript asks for: its
year, month and day of the month are the given year, the given month and 1. -/
theorem MakeDay_first (y m : Int) (hm : 0 ≤ m ∧ m ≤ 11) :
    YearFromTime (MakeDay y m 1 * msPerDay) = y
      ∧ MonthFromTime (MakeDay y m 1 * msPerDay) = m
      ∧ DateFromTime (MakeDay y m 1 * msPerDay) = 1 := by
  have h1 : m / 12 = 0 := by omega
  have h2 : m % 12 = m := by omega
  have hl : (if DaysInYear y = 366 then (1 : Int) else 0) = 0
      ∨ (if DaysInYear y = 366 then (1 : Int) else 0) = 1 := by split <;> simp
  have hd : DaysInYear y = 365 + (if DaysInYear y = 366 then (1 : Int) else 0) := by
    unfold DaysInYear; split_ifs <;> omega
  have hms := monthStart_lt m _ hm hl
  have hday : MakeDay y m 1 = DayFromYear y + monthStart m (if DaysInYear y = 366 then 1 else 0) := by
    unfold MakeDay; simp only [h1, h2, add_zero]; omega
  have hy : YearFromTime (MakeDay y m 1 * msPerDay) = y := by
    unfold YearFromTime
    rw [Day_mul_msPerDay]
    apply yearFromDay_unique
    · omega
    · rw [DayFromYear_succ]; omega
  have hleap : InLeapYear (MakeDay y m 1 * msPerDay) = (if DaysInYear y = 366 then 1 else 0) := by
    unfold InLeapYear; rw [hy]
  have hdw : DayWithinYear (MakeDay y m 1 * msPerDay)
      = monthStart m (if DaysInYear y = 366 then 1 else 0) := by
    unfold DayWithinYear; rw [hy, Day_mul_msPerDay]; omega
  have hmo : MonthFromTime (MakeDay y m 1 * msPerDay) = m := by
    unfold MonthFromTime
    rw [hdw, hleap]
    exact monthFromDayInYear_monthStart m _ hm hl
  refine ⟨hy, hmo, ?_⟩
  unfold DateFromTime
  rw [hmo, hdw, hleap]; omega

/-! ## `Date` methods in a zone with a constant offset -/

theorem TimeClip_valid {t : Int} (h : validTime t) : TimeClip t = some t := by
  unfold TimeClip; exact if_pos h

/-- In a zone with a constant offset, setting the day of the month to the current one
plus `k` moves the time value by `k` days. -/
theorem setDate_getDate_fixed (c t k : Int) :
    setDate (fixedZone c) (some t) (numAdd (getDate (fixedZone c) (some t)) k)
      = TimeClip (t + k * msPerDay) := by
  simp only [setDate, getDate, numAdd, Option.map, LocalTime, UTC, fixedZone]
  rw [MakeDay_roundtrip]
  congr 1
  have h := Day_add_TimeWithinDay (t + c)
  unfold MakeDate
  have : (Day (t + c) - DateFromTime (t + c) + (DateFromTime (t + c) + k)) * msPerDay
      = Day (t + c) * msPerDay + k * msPerDay := by ring
  rw [this]
  omega

theorem setUTCHours_zero (t : Int) (h : validTime t) :
    setUTCHours (some t) 0 0 0 0 = some (Day t * msPerDay) := by
  have e : MakeDate (Day t) (MakeTime 0 0 0 0) = Day t * msPerDay := by
    simp [MakeDate, MakeTime]
  simp only [setUTCHours, e]
  apply TimeClip_valid
  unfold validTime maxTimeValue Day msPerDay at *
  omega

/-- Window start in a zone with a constant offset. -/
theorem statsStart_fixed (c now days : Int) (h : validTime now) :
    statsStart (fixedZone c) now days = TimeClip ((Day now - (days - 1)) * msPerDay) := by
  unfold statsStart
  simp only [TimeClip_valid h, setUTCHours_zero now h]
  have : numSub (getDate (fixedZone c) (some (Day now * msPerDay))) (days - 1)
      = numAdd (getDate (fixedZone c) (some (Day now * msPerDay))) (-(days - 1)) := by
    simp [numSub, numAdd, getDate, sub_eq_add_neg]
  rw [this, setDate_getDate_fixed]
  congr 1
  ring

theorem loopDate_fixed (c st i : Int) :
    loopDate (fixedZone c) (some st) i
      = (TimeClip (st + i * msPerDay)).map (fun t => slice10 (isoString t)) := by
  unfold loopDate
  simp only [setDate_getDate_fixed]
  cases TimeClip (st + i * msPerDay) <;> simp [toISOString]

/-! ## The loop in closed form -/

theorem densifyLoop_eq (z : Zone) (start : Option Int) (agg : List AggRow) (days : Int) :
    ∀ (fuel : Nat) (i : Int) (out : List DaySeriesPoint), i + fuel = days →
      densifyLoop z start agg days fuel i out
        = (datesFrom z start i fuel).map (fun ds => out ++ ds.map (loopPoint agg)) := by
  intro fuel
  induction fuel with
  | zero => intro i out _; simp [densifyLoop, datesFrom]
  | succ n ih =>
    intro i out h
    have hi : i < days := by omega
    simp only [densifyLoop, if_pos hi, datesFrom]
    cases hd : loopDate z start i with
    | none => simp
    | some s =>
      simp only []
      rw [ih (i + 1) _ (by push_cast at h; omega)]
      cases datesFrom z start (i + 1) n <;> simp

/-- The loop pushes one point for each date of the window, in order. -/
theorem densify_eq (z : Zone) (start : Option Int) (agg : List AggRow) (days : Int) :
    densify z start agg days = (windowDates z start days).map (List.map (loopPoint agg)) := by
  unfold densify windowDates
  by_cases h : 0 ≤ days
  · rw [densifyLoop_eq z start agg days days.toNat 0 [] (by omega)]
    cases datesFrom z start 0 days.toNat <;> simp
  · have : days.toNat = 0 := by omega
    simp [this, densifyLoop, datesFrom]

/-- The loop makes no iteration when `days` is not positive, whatever bound on the
number of iterations. -/
theorem densifyLoop_nonpos (z : Zone) (start : Option Int) (agg : List AggRow) (days : Int)
    (h : days ≤ 0) (fuel : Nat) : densifyLoop z start agg days fuel 0 [] = some [] := by
  cases fuel with
  | zero => rfl
  | succ n => simp [densifyLoop, not_lt.2 h]

theorem datesFrom_length (z : Zone) (start : Option Int) :
    ∀ (n : Nat) (i : Int) (ds : List String), datesFrom z start i n = some ds → ds.length = n := by
  intro n
  induction n with
  | zero => intro i ds h; simp [datesFrom] at h; simp [← h]
  | succ n ih =>
    intro i ds h
    simp only [datesFrom] at h
    cases hd : loopDate z start i with
    | none => simp [hd] at h
    | some s =>
      cases hr : datesFrom z start (i + 1) n with
      | none => simp [hd, hr] at h
      | some rest =>
        simp [hd, hr] at h
        rw [← h]; simp [ih _ _ hr]

/-! ## Date strings -/

theorem ymd_Day (t : Int) : ymd (Day t) = ymdOfTime t := by
  unfold ymd ymdOfTime
  rw [YearFromTime_Day, MonthFromTime_Day, DateFromTime_Day]

theorem inYears_iff (n : Int) : inYears n ↔ 0 ≤ yearFromDay n ∧ yearFromDay n ≤ 9999 := by
  have hs := yearFromDay_spec n
  have h0 : DayFromYear 0 = -719528 := by decide
  have h1 : DayFromYear (9999 + 1) = 2932897 := by decide
  unfold inYears
  constructor
  · intro ⟨ha, hb⟩
    constructor
    · by_contra hc
      have : yearFromDay n + 1 ≤ 0 := by omega
      rcases eq_or_lt_of_le this with e | l
      · rw [e] at hs; omega
      · have := DayFromYear_lt _ _ l; omega
    · by_contra hc
      have : 9999 + 1 ≤ yearFromDay n := by omega
      rcases eq_or_lt_of_le this with e | l
      · rw [← e] at hs; omega
      · have := DayFromYear_lt _ _ l; omega
  · intro ⟨ha, hb⟩
    constructor
    · rcases eq_or_lt_of_le ha with e | l
      · rw [← e] at hs; omega
      · have := DayFromYear_lt _ _ l; omega
    · have : yearFromDay n + 1 ≤ 9999 + 1 := by omega
      rcases eq_or_lt_of_le this with e | l
      · rw [e] at hs; omega
      · have := DayFromYear_lt _ _ l; omega

theorem validTime_of_inYears (t : Int) (h : inYears (Day t)) : validTime t := by
  unfold inYears Day msPerDay at h
  unfold validTime maxTimeValue
  omega

theorem validTime_of_inYears_day (n : Int) (h : inYears n) : validTime (n * msPerDay) := by
  apply validTime_of_inYears
  rwa [Day_mul_msPerDay]

/-- Within the years 0000 to 9999 the first ten characters of `toISOString` are the
date `YYYY-MM-DD`. -/
theorem toISOString_slice10 (t : Int) (h : inYears (Day t)) :
    (toISOString (some t)).map slice10 = some (ymd (Day t)) := by
  rw [ymd_Day]
  have hy := (inYears_iff (Day t)).1 h
  have hy2 : 0 ≤ YearFromTime t ∧ YearFromTime t ≤ 9999 := hy
  simp [toISOString, isoString, slice10, isoYear, hy2, ymdOfTime, pad4, pad2]

theorem isoDate_inYears (t : Int) (h : inYears (Day t)) : isoDate t = ymd (Day t) := by
  have := toISOString_slice10 t h
  simpa [toISOString, isoDate] using this

/-- The store formats a date of the years 0000 to 9999 as `YYYY-MM-DD`. -/
theorem dateToString_inYears (t : Int) (h : inYears (Day t)) :
    dateToString t = some (ymd (Day t)) := by
  rw [ymd_Day]
  have hy : 0 ≤ YearFromTime t ∧ YearFromTime t ≤ 9999 := (inYears_iff (Day t)).1 h
  simp [dateToString, hy, ymdOfTime]

theorem dateToString_not_inYears (t : Int) (h : ¬ inYears (Day t)) :
    dateToString t = none := by
  have hy : ¬ (0 ≤ YearFromTime t ∧ YearFromTime t ≤ 9999) :=
    fun hc => h ((inYears_iff (Day t)).2 hc)
  simp only [dateToString, hy, if_false]

theorem digitChar_inj (a b : Nat) (h : digitChar a = digitChar b) : a % 10 = b % 10 := by
  have key : ∀ x y : Fin 10, Char.ofNat (48 + x.val) = Char.ofNat (48 + y.val) → x = y := by
    decide
  have := key ⟨a % 10, Nat.mod_lt _ (by decide)⟩ ⟨b % 10, Nat.mod_lt _ (by decide)⟩ h
  exact congrArg Fin.val this

/-- Distinct days of the years 0000 to 9999 have distinct date strings. -/
theorem ymd_inj (a b : Int) (ha : inYears a) (hb : inYears b) (h : ymd a = ymd b) : a = b := by
  have hya : 0 ≤ YearFromTime (a * msPerDay) ∧ YearFromTime (a * msPerDay) ≤ 9999 := by
    have := (inYears_iff a).1 ha
    unfold YearFromTime; rwa [Day_mul_msPerDay]
  have hyb : 0 ≤ YearFromTime (b * msPerDay) ∧ YearFromTime (b * msPerDay) ≤ 9999 := by
    have := (inYears_iff b).1 hb
    unfold YearFromTime; rwa [Day_mul_msPerDay]
  have hma := MonthFromTime_range (a * msPerDay)
  have hmb := MonthFromTime_range (b * msPerDay)
  have hda := DateFromTime_range (a * msPerDay)
  have hdb := DateFromTime_range (b * msPerDay)
  unfold ymd ymdOfTime at h
  replace h := congrArg String.data h
  dsimp only at h
  simp only [pad4, pad2, List.cons_append, List.nil_append, List.cons.injEq, true_and,
    and_true] at h
  obtain ⟨y1, y2, y3, y4, m1, m2, d1, d2⟩ := h
  have := digitChar_inj _ _ y1
  have := digitChar_inj _ _ y2
  have := digitChar_inj _ _ y3
  have := digitChar_inj _ _ y4
  have := digitChar_inj _ _ m1
  have := digitChar_inj _ _ m2
  have := digitChar_inj _ _ d1
  have := digitChar_inj _ _ d2
  have ey2 : YearFromTime (a * msPerDay) = YearFromTime (b * msPerDay) := by omega
  have em2 : MonthFromTime (a * msPerDay) = MonthFromTime (b * msPerDay) := by omega
  have ed2 : DateFromTime (a * msPerDay) = DateFromTime (b * msPerDay) := by omega
  have e1 := Day_eq_MakeDay (a * msPerDay)
  have e2 := Day_eq_MakeDay (b * msPerDay)
  rw [Day_mul_msPerDay] at e1 e2
  rw [e1, e2, ey2, em2, ed2]

/-! ## Order of the date strings -/

theorem digitChar_lt (a b : Nat) (h : a % 10 < b % 10) : digitChar a < digitChar b := by
  have key : ∀ x y : Fin 10, x < y → Char.ofNat (48 + x.val) < Char.ofNat (48 + y.val) := by
    decide
  exact key ⟨a % 10, Nat.mod_lt _ (by decide)⟩ ⟨b % 10, Nat.mod_lt _ (by decide)⟩ h

theorem digitChar_congr (a b : Nat) (h : a % 10 = b % 10) : digitChar a = digitChar b := by
  unfold digitChar; rw [h]

theorem chars_lt_cons_same (a : Char) (s t : List Char) (h : s < t) : a :: s < a :: t :=
  List.Lex.cons h

theorem chars_lt_cons_lt (a b : Char) (s t : List Char) (h : a < b) : a :: s < b :: t :=
  List.Lex.rel h

theorem chars_lt_append_left (l s t : List Char) (h : s < t) : l ++ s < l ++ t := by
  induction l with
  | nil => exact h
  | cons a l ih => exact chars_lt_cons_same a _ _ ih

theorem chars_lt_append_right (l1 l2 s t : List Char) (hl : l1.length = l2.length)
    (h : l1 < l2) : l1 ++ s < l2 ++ t := by
  induction h with
  | nil => simp at hl
  | cons _ ih =>
    simp only [List.length_cons, add_left_inj] at hl
    exact chars_lt_cons_same _ _ _ (ih hl)
  | rel hab => exact chars_lt_cons_lt _ _ _ _ hab

/-- A digit followed by characters: the comparison is decided by the first digit or,
when the first digits agree, by the rest. -/
theorem chars_lt_digit_cons (a b : Nat) (s t : List Char)
    (h : a % 10 < b % 10 ∨ (a % 10 = b % 10 ∧ s < t)) :
    digitChar a :: s < digitChar b :: t := by
  rcases h with h | ⟨h, hst⟩
  · exact chars_lt_cons_lt _ _ _ _ (digitChar_lt a b h)
  · rw [digitChar_congr a b h]
    exact chars_lt_cons_same _ _ _ hst

theorem pad2_lt (a b : Nat) (hb : b < 100) (h : a < b) : pad2 a < pad2 b := by
  unfold pad2
  apply chars_lt_digit_cons
  by_cases h1 : a / 10 % 10 < b / 10 % 10
  · exact Or.inl h1
  · refine Or.inr ⟨by omega, ?_⟩
    exact chars_lt_cons_lt _ _ _ _ (digitChar_lt a b (by omega))

theorem pad4_lt (a b : Nat) (hb : b < 10000) (h : a < b) : pad4 a < pad4 b := by
  unfold pad4
  apply chars_lt_digit_cons
  by_cases h1 : a / 1000 < b / 1000
  · exact Or.inl (by omega)
  · have e1 : a / 1000 = b / 1000 := by omega
    refine Or.inr ⟨by omega, ?_⟩
    apply chars_lt_digit_cons
    by_cases h2 : a / 100 < b / 100
    · exact Or.inl (by omega)
    · have e2 : a / 100 = b / 100 := by omega
      refine Or.inr ⟨by omega, ?_⟩
      apply chars_lt_digit_cons
      by_cases h3 : a / 10 < b / 10
      · exact Or.inl (by omega)
      · have e3 : a / 10 = b / 10 := by omega
        refine Or.inr ⟨by omega, ?_⟩
        exact chars_lt_cons_lt _ _ _ _ (digitChar_lt a b (by omega))

/-- Later days of the years 0000 to 9999 have greater date strings. -/
theorem ymd_lt (a b : Int) (ha : inYears a) (hb : inYears b) (h : a < b) : ymd a < ymd b := by
  rw [String.lt_iff_toList_lt]
  show (ymd a).data < (ymd b).data
  have hya : 0 ≤ YearFromTime (a * msPerDay) ∧ YearFromTime (a * msPerDay) ≤ 9999 := by
    have := (inYears_iff a).1 ha
    unfold YearFromTime; rwa [Day_mul_msPerDay]
  have hyb : 0 ≤ YearFromTime (b * msPerDay) ∧ YearFromTime (b * msPerDay) ≤ 9999 := by
    have := (inYears_iff b).1 hb
    unfold YearFromTime; rwa [Day_mul_msPerDay]
  have hma := MonthFromTime_range (a * msPerDay)
  have hmb := MonthFromTime_range (b * msPerDay)
  have hda := DateFromTime_range (a * msPerDay)
  have hdb := DateFromTime_range (b * msPerDay)
  have hY : YearFromTime (a * msPerDay) ≤ YearFromTime (b * msPerDay) := by
    unfold YearFromTime; rw [Day_mul_msPerDay, Day_mul_msPerDay]
    exact yearFromDay_mono a b (le_of_lt h)
  unfold ymd ymdOfTime
  show pad4 _ ++ '-' :: pad2 _ ++ '-' :: pad2 _ < pad4 _ ++ '-' :: pad2 _ ++ '-' :: pad2 _
  simp only [List.append_assoc]
  rcases lt_or_eq_of_le hY with hlt | heq
  · exact chars_lt_append_right _ _ _ _ rfl (pad4_lt _ _ (by omega) (by omega))
  · rw [heq]
    apply chars_lt_append_left
    apply chars_lt_cons_same
    have hleap : InLeapYear (a * msPerDay) = InLeapYear (b * msPerDay) := by
      unfold InLeapYear; rw [heq]
    have hdw : DayWithinYear (a * msPerDay) < DayWithinYear (b * msPerDay) := by
      unfold DayWithinYear; rw [heq, Day_mul_msPerDay, Day_mul_msPerDay]; omega
    have hM : MonthFromTime (a * msPerDay) ≤ MonthFromTime (b * msPerDay) := by
      unfold MonthFromTime; rw [hleap]
      exact monthFromDayInYear_mono _ _ _ (le_of_lt hdw)
    rcases lt_or_eq_of_le hM with hlt | hmeq
    · exact chars_lt_append_right _ _ _ _ rfl (pad2_lt _ _ (by omega) (by omega))
    · rw [hmeq]
      apply chars_lt_append_left
      apply chars_lt_cons_same
      apply pad2_lt _ _ (by omega)
      have : DateFromTime (a * msPerDay) < DateFromTime (b * msPerDay) := by
        unfold DateFromTime; rw [hmeq, hleap]; omega
      omega

/-! ## The dates of a window -/

theorem datesFrom_fixed (c st : Int) :
    ∀ (n : Nat) (i : Int), (∀ k : Nat, k < n → validTime (st + (i + k) * msPerDay)) →
      datesFrom (fixedZone c) (some st) i n
        = some ((List.range n).map (fun k : Nat => isoDate (st + (i + k) * msPerDay))) := by
  intro n
  induction n with
  | zero => intro i _; simp [datesFrom]
  | succ n ih =>
    intro i hv
    have h0 := hv 0 (by omega)
    simp only [Nat.cast_zero, add_zero] at h0
    have hrest : ∀ k : Nat, k < n → validTime (st + (i + 1 + k) * msPerDay) := by
      intro k hk
      have := hv (k + 1) (by omega)
      push_cast at this
      have e : (i + 1 + (k : Int)) = i + ((k : Int) + 1) := by ring
      rw [e]; exact this
    simp only [datesFrom, loopDate_fixed, TimeClip_valid h0, Option.map, ih (i + 1) hrest]
    rw [List.range_succ_eq_map]
    simp only [List.map_cons, List.map_map, Nat.cast_zero, add_zero, isoDate]
    congr 2
    apply List.map_congr_left
    intro k _
    simp only [Function.comp, Nat.succ_eq_add_one, Nat.cast_add, Nat.cast_one]
    congr 3
    ring

/-- The window dates in a zone with a constant offset, for a window inside the years
0000 to 9999: the consecutive calendar dates from the day of `st` on. -/
theorem windowDates_inYears (c st days : Int) (h1 : inYears (Day st))
    (h2 : inYears (Day st + (days - 1))) :
    windowDates (fixedZone c) (some st) days
      = some ((List.range days.toNat).map (fun k : Nat => ymd (Day st + k))) := by
  unfold windowDates
  have hin : ∀ k : Nat, k < days.toNat → inYears (Day (st + (0 + (k : Int)) * msPerDay)) := by
    intro k hk
    rw [Day_add_days]
    unfold inYears at *
    omega
  rw [datesFrom_fixed c st days.toNat 0 (fun k hk => validTime_of_inYears _ (hin k hk))]
  congr 1
  apply List.map_congr_left
  intro k hk
  rw [isoDate_inYears _ (hin k (List.mem_range.1 hk)), Day_add_days]
  simp

/-! ## The pipeline result as the loop reads it -/

theorem loopPoint_eq (agg : List AggRow) (s : String) :
    loopPoint agg s = ⟨s, lookupCount agg s⟩ := rfl

theorem lookupCount_nil (s : String) : lookupCount [] s = 0 := rfl

theorem lookupCount_cons (a : AggRow) (rest : List AggRow) (s : String) :
    lookupCount (a :: rest) s = if a._id = s then a.count else lookupCount rest s := by
  unfold lookupCount
  by_cases h : a._id = s <;> simp [List.find?_cons, h]

theorem lookupCount_of_find (agg : List AggRow) (s : String) (a : AggRow)
    (h : agg.find? (fun a => a._id == s) = some a) : lookupCount agg s = a.count := by
  simp [lookupCount, h]

theorem lookupCount_filter (agg : List AggRow) (ds : List String) (s : String) (hs : s ∈ ds) :
    lookupCount (agg.filter (fun a => decide (a._id ∈ ds))) s = lookupCount agg s := by
  induction agg with
  | nil => rfl
  | cons a rest ih =>
    by_cases ha : a._id ∈ ds
    · simp only [List.filter_cons, ha, decide_True, if_true, lookupCount_cons, ih]
    · have hne : a._id ≠ s := fun e => ha (e ▸ hs)
      simp only [List.filter_cons, ha, decide_False, lookupCount_cons, if_neg hne]
      exact ih

theorem lookupCount_bump (k : String) (rows : List AggRow) (s : String) :
    lookupCount (bump k rows) s = lookupCount rows s + (if k = s then 1 else 0) := by
  induction rows with
  | nil => simp [bump, lookupCount_cons, lookupCount_nil]
  | cons a rest ih =>
    unfold bump
    by_cases hk : a._id = k
    · simp only [hk, if_true, lookupCount_cons]
      by_cases hs : k = s <;> simp [hs]
    · simp only [hk, if_false, lookupCount_cons, ih]
      by_cases hs : a._id = s
      · have : k ≠ s := fun e => hk (hs.trans e.symm)
        simp [hs, this]
      · simp [hs]

theorem lookupCount_foldl (keys : List String) (s : String) :
    ∀ acc : List AggRow, lookupCount (keys.foldl (fun acc k => bump k acc) acc) s
      = lookupCount acc s + keys.count s := by
  induction keys with
  | nil => intro acc; simp
  | cons k ks ih =>
    intro acc
    simp only [List.foldl_cons, ih, lookupCount_bump, List.count_cons]
    by_cases h : k = s
    · simp [h]; omega
    · simp [h]

theorem lookupCount_groupCount (keys : List String) (s : String) :
    lookupCount (groupCount keys) s = keys.count s := by
  unfold groupCount
  rw [lookupCount_foldl]; simp [lookupCount_nil]

theorem ids_bump (k : String) (rows : List AggRow) :
    (bump k rows).map AggRow._id
      = if k ∈ rows.map AggRow._id then rows.map AggRow._id else rows.map AggRow._id ++ [k] := by
  induction rows with
  | nil => simp [bump]
  | cons a rest ih =>
    unfold bump
    by_cases hk : a._id = k
    · simp [hk]
    · have hk2 : ¬ k = a._id := fun e => hk e.symm
      simp only [hk, if_false, List.map_cons, ih, List.mem_cons, hk2, false_or]
      split <;> simp

theorem nodup_ids_bump (k : String) (rows : List AggRow)
    (h : (rows.map AggRow._id).Nodup) : ((bump k rows).map AggRow._id).Nodup := by
  rw [ids_bump]
  split
  · exact h
  · rename_i hk
    rw [List.nodup_append]
    refine ⟨h, by simp, ?_⟩
    intro a ha hb
    simp at hb
    subst hb
    exact hk ha

theorem nodup_ids_foldl (keys : List String) :
    ∀ acc : List AggRow, (acc.map AggRow._id).Nodup →
      ((keys.foldl (fun acc k => bump k acc) acc).map AggRow._id).Nodup := by
  induction keys with
  | nil => intro acc h; simpa using h
  | cons k ks ih => intro acc h; exact ih _ (nodup_ids_bump k acc h)

theorem nodup_ids_groupCount (keys : List String) :
    ((groupCount keys).map AggRow._id).Nodup :=
  nodup_ids_foldl keys [] (by simp)

theorem lookupCount_of_not_mem (rows : List AggRow) (s : String)
    (h : s ∉ rows.map AggRow._id) : lookupCount rows s = 0 := by
  induction rows with
  | nil => rfl
  | cons a rest ih =>
    simp only [List.map_cons, List.mem_cons, not_or] at h
    rw [lookupCount_cons, if_neg (fun e => h.1 e.symm), ih h.2]

theorem lookupCount_of_mem (rows : List AggRow) (a : AggRow)
    (hn : (rows.map AggRow._id).Nodup) (ha : a ∈ rows) : lookupCount rows a._id = a.count := by
  induction rows with
  | nil => cases ha
  | cons b rest ih =>
    simp only [List.map_cons, List.nodup_cons] at hn
    rw [lookupCount_cons]
    rcases List.mem_cons.1 ha with e | hm
    · subst e; simp
    · have : b._id ≠ a._id := by
        intro e
        exact hn.1 (e ▸ List.mem_map_of_mem AggRow._id hm)
      rw [if_neg this, ih hn.2 hm]

theorem lookupCount_perm (l1 l2 : List AggRow) (hp : l1.Perm l2)
    (hn : (l1.map AggRow._id).Nodup) (s : String) : lookupCount l1 s = lookupCount l2 s := by
  have hn2 : (l2.map AggRow._id).Nodup := (hp.map AggRow._id).nodup_iff.1 hn
  by_cases hs : s ∈ l1.map AggRow._id
  · obtain ⟨a, ha, rfl⟩ := List.mem_map.1 hs
    rw [lookupCount_of_mem l1 a hn ha, lookupCount_of_mem l2 a hn2 (hp.mem_iff.1 ha)]
  · have hs2 : s ∉ l2.map AggRow._id := fun h => hs ((hp.map AggRow._id).mem_iff.2 h)
    rw [lookupCount_of_not_mem l1 s hs, lookupCount_of_not_mem l2 s hs2]

/-- What the loop reads from the sorted groups is the number of keys equal to the date. -/
theorem lookupCount_pipeline (keys : List String) (s : String) :
    lookupCount (sortById (groupCount keys)) s = keys.count s := by
  unfold sortById
  rw [lookupCount_perm _ (groupCount keys) (List.perm_insertionSort _ _)
    ((List.perm_insertionSort _ _).map AggRow._id |>.nodup_iff.2 (nodup_ids_groupCount keys))]
  exact lookupCount_groupCount keys s

theorem groupKeys_cons (r : AttendanceRecord) (rest : List AttendanceRecord) :
    groupKeys (r :: rest) = match dateToString r.timestamp with
      | none => none
      | some k =>
        match groupKeys rest with
        | none => none
        | some ks => some (k :: ks) := rfl

theorem groupKeys_inYears (l : List AttendanceRecord)
    (h : ∀ r ∈ l, inYears (Day r.timestamp)) :
    groupKeys l = some (l.map (fun r => ymd (Day r.timestamp))) := by
  induction l with
  | nil => rfl
  | cons r rest ih =>
    have hr := h r (List.mem_cons_self _ _)
    have hrest := ih (fun x hx => h x (List.mem_cons_of_mem _ hx))
    rw [groupKeys_cons, dateToString_inYears _ hr, hrest]
    rfl

theorem count_map_ymd (l : List AttendanceRecord) (d : Int) (hd : inYears d)
    (h : ∀ r ∈ l, inYears (Day r.timestamp)) :
    (l.map (fun r => ymd (Day r.timestamp))).count (ymd d)
      = l.countP (fun r => decide (Day r.timestamp = d)) := by
  induction l with
  | nil => rfl
  | cons r rest ih =>
    have hr := h r (List.mem_cons_self _ _)
    have hrest := ih (fun x hx => h x (List.mem_cons_of_mem _ hx))
    rw [List.map_cons, List.count_cons, List.countP_cons, hrest]
    by_cases e : Day r.timestamp = d
    · simp [e]
    · have : ¬ ymd (Day r.timestamp) = ymd d := fun hh => e (ymd_inj _ _ hr hd hh)
      simp [e, this]

theorem countP_matched (store : List AttendanceRecord) (st d : Int)
    (h : st ≤ d * msPerDay) :
    (store.filter (fun r => decide (st ≤ r.timestamp))).countP
        (fun r => decide (Day r.timestamp = d))
      = store.countP (fun r => decide (Day r.timestamp = d)) := by
  rw [List.countP_filter]
  apply List.countP_congr
  intro r _
  simp only [Bool.and_eq_true, decide_eq_true_eq]
  constructor
  · exact fun hh => hh.1
  · intro hh
    refine ⟨hh, ?_⟩
    have := Day_add_TimeWithinDay r.timestamp
    unfold TimeWithinDay msPerDay at *
    omega

/-- The groups the pipeline gives for a store whose matched records lie in the years
0000 to 9999, as the loop reads them: for a day `d` of those years not before the bound,
the number of stored records whose timestamp falls in that UTC day. -/
theorem runPipeline_counts (store : List AttendanceRecord) (st : Int)
    (hstore : ∀ r ∈ store, st ≤ r.timestamp → inYears (Day r.timestamp)) :
    ∃ rows, runPipeline store (some st) = some rows
      ∧ ∀ d : Int, inYears d → st ≤ d * msPerDay →
          lookupCount rows (ymd d) = store.countP (fun r => decide (Day r.timestamp = d)) := by
  have hm : ∀ r ∈ store.filter (fun r => decide (st ≤ r.timestamp)),
      inYears (Day r.timestamp) := by
    intro r hr
    have := List.mem_filter.1 hr
    exact hstore r this.1 (by simpa using this.2)
  have hrun : runPipeline store (some st)
      = some (sortById (groupCount ((store.filter (fun r => decide (st ≤ r.timestamp))).map
          (fun r => ymd (Day r.timestamp))))) := by
    simp only [runPipeline, groupKeys_inYears _ hm]
  refine ⟨_, hrun, ?_⟩
  intro d hd hst
  rw [lookupCount_pipeline, count_map_ymd _ d hd hm, countP_matched store st d hst]

/-! ## The list handler -/

/-- The filter of lines 49 to 53 in closed form: it is always built. -/
theorem buildQuery_eq (parse : String → Option Int) (fromQ toQ deviceId : Option String) :
    buildQuery parse fromQ toQ deviceId
      = some { deviceId := if truthy deviceId then deviceId else none
               timestamp :=
                 if truthy fromQ || truthy toQ then
                   some { gte := if truthy fromQ then some (newDate parse fromQ) else none
                          lte := if truthy toQ then some (newDate parse toQ) else none }
                 else none } := by
  unfold buildQuery
  cases hd : truthy deviceId <;> cases hf : truthy fromQ <;> cases ht : truthy toQ <;> simp

theorem truthy_some (s : String) : truthy (some s) = true ↔ s.data ≠ [] := by
  simp [truthy]

theorem truthy_none : truthy none = false := rfl

/-! ## The stats handler -/

/-- The response of the stats handler in a zone with a constant offset when the window
lies in the years 0000 to 9999 and the store answers with `rows`. -/
theorem statsHandler_inYears (c now : Int) (aggregate : Option Int → Option (List AggRow))
    (daysParam : Option String) (rows : List AggRow)
    (h1 : inYears (Day now - (statsDays daysParam - 1))) (h2 : inYears (Day now))
    (hagg : aggregate (statsStart (fixedZone c) now (statsDays daysParam)) = some rows) :
    statsHandler (fixedZone c) now aggregate daysParam
      = StatsResponse.json ((List.range (statsDays daysParam).toNat).map (fun k : Nat =>
          ⟨ymd (Day now - (statsDays daysParam - 1) + k),
            lookupCount rows (ymd (Day now - (statsDays daysParam - 1) + k))⟩)) := by
  unfold statsHandler
  simp only [hagg]
  rw [statsStart_fixed c now _ (validTime_of_inYears now h2),
    TimeClip_valid (validTime_of_inYears_day _ h1), densify_eq,
    windowDates_inYears c _ _ (by rwa [Day_mul_msPerDay])
      (by rw [Day_mul_msPerDay]; convert h2 using 1; ring)]
  simp only [Option.map, List.map_map, Day_mul_msPerDay]
  congr 1

/-- The response of the stats handler in a zone with a constant offset when the first
day of the window is in the range of `Date` and the store answers with `rows`: one point
for each day, dated by the first ten characters of its ISO string. -/
theorem statsHandler_valid (c now : Int) (aggregate : Option Int → Option (List AggRow))
    (daysParam : Option String) (rows : List AggRow) (hnow : validTime now)
    (h1 : validTime ((Day now - (statsDays daysParam - 1)) * msPerDay))
    (hagg : aggregate (statsStart (fixedZone c) now (statsDays daysParam)) = some rows) :
    statsHandler (fixedZone c) now aggregate daysParam
      = StatsResponse.json ((List.range (statsDays daysParam).toNat).map (fun k : Nat =>
          loopPoint rows
            (isoDate ((Day now - (statsDays daysParam - 1)) * msPerDay + (0 + k) * msPerDay)))) := by
  unfold statsHandler
  simp only [hagg]
  rw [statsStart_fixed c now _ hnow, TimeClip_valid h1, densify_eq]
  unfold windowDates
  rw [datesFrom_fixed]
  · simp only [Option.map, List.map_map]
    congr 1
  · intro k hk
    unfold validTime maxTimeValue Day msPerDay at *
    omega

/-- The dense series over `n` consecutive days of the years 0000 to 9999 starting at day
`d0`: its length, its dates, their strict increase and distinctness, and the last one. -/
theorem series_props (d0 : Int) (n : Nat) (count : Nat → Nat) (h0 : inYears d0)
    (h1 : inYears (d0 + (n - 1))) (hn : 1 ≤ n) (out : List DaySeriesPoint)
    (hout : out = (List.range n).map (fun k : Nat => ⟨ymd (d0 + k), count k⟩)) :
    out.length = n
      ∧ out.map DaySeriesPoint.date = (List.range n).map (fun k : Nat => ymd (d0 + k))
      ∧ (out.map DaySeriesPoint.date).Pairwise (fun s1 s2 => s1 < s2)
      ∧ (out.map DaySeriesPoint.date).Nodup
      ∧ (out.map DaySeriesPoint.date).getLast? = some (ymd (d0 + (n - 1))) := by
  have hm : out.map DaySeriesPoint.date = (List.range n).map (fun k : Nat => ymd (d0 + k)) := by
    rw [hout, List.map_map]; rfl
  have hin : ∀ x ∈ List.range n, inYears (d0 + (x : Nat)) := by
    intro x hx
    have hx' := List.mem_range.1 hx
    unfold inYears at *; omega
  refine ⟨by rw [hout, List.length_map, List.length_range], hm, ?_, ?_, ?_⟩
  · rw [hm, List.pairwise_map]
    refine List.Pairwise.imp_of_mem ?_ (List.pairwise_lt_range n)
    intro x y hx hy hxy
    exact ymd_lt _ _ (hin x hx) (hin y hy) (by omega)
  · rw [hm]
    apply List.Nodup.map_on _ (List.nodup_range n)
    intro x hx y hy hxy
    have := ymd_inj (d0 + x) (d0 + y) (hin x hx) (hin y hy) hxy
    omega
  · rw [hm, List.getLast?_map, List.getLast?_range, if_neg (by omega)]
    simp only [Option.map]
    congr 2
    omega

/-- The default window in a zone with a constant offset: when `days` is absent, `"0"` or does not parse, the window size is 14 and, in a
server zone with a constant offset, on a day whose 14-day window lies in the years 0000
to 9999 and with the store answering, the handler answers exactly 14 points, one for each
of the 14 consecutive days ending today. -/
theorem default_window_fixed_zone (c now : Int) (aggregate : Option Int → Option (List AggRow))
    (daysParam : Option String) (rows : List AggRow)
    (hp : daysParam = none ∨ daysParam = some "0" ∨ parseInt daysParam = none)
    (h1 : inYears (Day now - 13)) (h2 : inYears (Day now))
    (hagg : aggregate (statsStart (fixedZone c) now 14) = some rows) :
    statsDays daysParam = 14
      ∧ ∃ out, statsHandler (fixedZone c) now aggregate daysParam = StatsResponse.json out
        ∧ out.length = 14
        ∧ out.map DaySeriesPoint.date
            = (List.range 14).map (fun k : Nat => ymd (Day now - 13 + k))
        ∧ (out.map DaySeriesPoint.date).Pairwise (fun s1 s2 => s1 < s2)
        ∧ (out.map DaySeriesPoint.date).getLast? = some (ymd (Day now)) := by
  have hd : statsDays daysParam = 14 := by
    rcases hp with h | h | h
    · subst h; decide
    · subst h; decide
    · simp [statsDays, h, orDefault]
  have hh := statsHandler_inYears c now aggregate daysParam rows
    (by rw [hd]; exact h1) h2 (by rw [hd]; exact hagg)
  rw [hd] at hh
  have hT : (14 : Int).toNat = 14 := rfl
  rw [hT] at hh
  have hp := series_props (Day now - (14 - 1)) 14
    (fun k => lookupCount rows (ymd (Day now - (14 - 1) + k))) h1
    (by convert h2 using 1; ring) (by omega) _ rfl
  refine ⟨hd, _, hh, hp.1, hp.2.1, hp.2.2.1, ?_⟩
  rw [hp.2.2.2.2]; congr 2; ring

/-- A stored record dated after the year 9999 and not before `start` makes the store
reject the pipeline, and the handler answer 500: here a record of 10000-01-01 and
`days=1` on 2024-01-03. -/
theorem statsHandler_rejects_year_10000 :
    dateToString 253402300800000 = none
      ∧ statsHandler (fixedZone 0) 1704283200123
          (runPipeline [⟨"dev1", none, 253402300800000, none⟩]) (some "1")
        = StatsResponse.error500 := by decide

/-! ## The claims -/

/-! ### C1: the dates of the series -/

/-- C1 as stated fails: with `days=740000` on 2024-01-03 the window starts before the
year 0000, where `toISOString` writes a sign and six digits for the year, so that
`slice(0,10)` keeps no day of the month: the handler answers 740000 points whose first
two carry the same string `-000003-12`, not two consecutive dates `YYYY-MM-DD`. -/
theorem c1_dates_repeat_before_year_zero :
    ∃ out, statsHandler (fixedZone 0) 1704283200123 (fun _ => some []) (some "740000")
        = StatsResponse.json out
      ∧ out.length = 740000
      ∧ (out.map DaySeriesPoint.date)[0]? = some "-000003-12"
      ∧ (out.map DaySeriesPoint.date)[1]? = some "-000003-12" := by
  have hd : statsDays (some "740000") = 740000 := by decide
  have h := statsHandler_valid 0 1704283200123 (fun _ => some []) (some "740000") []
    (by decide) (by rw [hd]; decide) rfl
  rw [hd] at h
  have ht : (740000 : Int).toNat = 740000 := by decide
  rw [ht] at h
  refine ⟨_, h, ?_, ?_, ?_⟩
  · rw [List.length_map, List.length_range]
  · rw [List.map_map, List.getElem?_map, List.getElem?_range (by decide)]
    decide
  · rw [List.map_map, List.getElem?_map, List.getElem?_range (by decide)]
    decide

/-- C1 amended: in a server zone with a constant offset from UTC, for every `days >= 1`
and every `now` such that the window, from `days - 1` days before the UTC date of `now`
to that date, lies in the years 0000 to 9999, and for every grouped result the store
answers with, the handler answers an array of exactly `days` entries whose dates are, in
order, the consecutive UTC calendar dates `YYYY-MM-DD` from today - (days - 1) to today:
strictly ascending as strings, each day of the window once, the last entry today. -/
theorem c1_dense_dates (c now : Int) (aggregate : Option Int → Option (List AggRow))
    (daysParam : Option String) (rows : List AggRow) (hdays : 1 ≤ statsDays daysParam)
    (h1 : inYears (Day now - (statsDays daysParam - 1))) (h2 : inYears (Day now))
    (hagg : aggregate (statsStart (fixedZone c) now (statsDays daysParam)) = some rows) :
    ∃ out, statsHandler (fixedZone c) now aggregate daysParam = StatsResponse.json out
      ∧ (out.length : Int) = statsDays daysParam
      ∧ out.map DaySeriesPoint.date
          = (List.range (statsDays daysParam).toNat).map
              (fun k : Nat => ymd (Day now - (statsDays daysParam - 1) + k))
      ∧ (out.map DaySeriesPoint.date).Pairwise (fun s1 s2 => s1 < s2)
      ∧ (out.map DaySeriesPoint.date).Nodup
      ∧ (out.map DaySeriesPoint.date).getLast? = some (ymd (Day now)) := by
  have hT : (((statsDays daysParam).toNat : Nat) : Int) = statsDays daysParam :=
    Int.toNat_of_nonneg (by omega)
  have hp := series_props (Day now - (statsDays daysParam - 1)) (statsDays daysParam).toNat
    (fun k => lookupCount rows (ymd (Day now - (statsDays daysParam - 1) + k))) h1
    (by rw [hT]; convert h2 using 1; ring) (by omega) _ rfl
  refine ⟨_, statsHandler_inYears c now aggregate daysParam rows h1 h2 hagg, ?_, hp.2.1,
    hp.2.2.1, hp.2.2.2.1, ?_⟩
  · rw [hp.1, hT]
  · rw [hp.2.2.2.2, hT]; congr 2; ring

/-- C1 at `days=3` on 2024-01-03T12:00:00.123Z, server on UTC, the store answering with
the groups of Scenario A. -/
theorem c1_dense_dates_witness :
    (1 : Int) ≤ statsDays (some "3")
      ∧ inYears (Day 1704283200123 - (statsDays (some "3") - 1))
      ∧ inYears (Day 1704283200123)
      ∧ ∃ out, statsHandler (fixedZone 0) 1704283200123
            (fun _ => some [⟨"2024-01-01", 2⟩, ⟨"2024-01-03", 1⟩]) (some "3")
          = StatsResponse.json out
        ∧ out.map DaySeriesPoint.date = ["2024-01-01", "2024-01-02", "2024-01-03"] := by
  refine ⟨by decide, by decide, by decide, ?_⟩
  obtain ⟨out, ho, _, hm, _⟩ := c1_dense_dates 0 1704283200123
    (fun _ => some [⟨"2024-01-01", 2⟩, ⟨"2024-01-03", 1⟩]) (some "3")
    [⟨"2024-01-01", 2⟩, ⟨"2024-01-03", 1⟩] (by decide) (by decide) (by decide) rfl
  exact ⟨out, ho, hm.trans (by decide)⟩

/-! ### C2: the counts, end to end -/

/-- C2 as stated fails: with `days=1000000000` the handler answers 500 and emits no count
at all, although the store holds a record of today. -/
theorem c2_no_counts_for_huge_days :
    statsHandler (fixedZone 0) 1704283200123
        (runPipeline [⟨"dev1", none, 1704283200000, none⟩]) (some "1000000000")
      = StatsResponse.error500 := by decide

/-- C2 amended: with the store a finite collection of records and the pipeline run as
`runPipeline`, in a server zone with a constant offset from UTC, for every `days >= 1`
and every `now` such that the window lies in the years 0000 to 9999, and every store
content whose records at or after `start` lie in the years 0000 to 9999, the handler
answers, for each of the `days` consecutive dates of the window in order, the number of
stored records whose timestamp falls in that UTC calendar day (0 when there are none). -/
theorem c2_counts (c now : Int) (daysParam : Option String) (store : List AttendanceRecord)
    (_hdays : 1 ≤ statsDays daysParam)
    (h1 : inYears (Day now - (statsDays daysParam - 1))) (h2 : inYears (Day now))
    (hstore : ∀ r ∈ store, (Day now - (statsDays daysParam - 1)) * msPerDay ≤ r.timestamp →
      inYears (Day r.timestamp)) :
    statsHandler (fixedZone c) now (runPipeline store) daysParam
      = StatsResponse.json ((List.range (statsDays daysParam).toNat).map (fun k : Nat =>
          ⟨ymd (Day now - (statsDays daysParam - 1) + k),
            store.countP (fun r =>
              decide (Day r.timestamp = Day now - (statsDays daysParam - 1) + k))⟩)) := by
  obtain ⟨rows, hr, hc⟩ := runPipeline_counts store _ hstore
  have hs : statsStart (fixedZone c) now (statsDays daysParam)
      = some ((Day now - (statsDays daysParam - 1)) * msPerDay) := by
    rw [statsStart_fixed c now _ (validTime_of_inYears now h2),
      TimeClip_valid (validTime_of_inYears_day _ h1)]
  rw [statsHandler_inYears c now (runPipeline store) daysParam rows h1 h2 (by rw [hs, hr])]
  congr 1
  apply List.map_congr_left
  intro k hk
  have hk' := List.mem_range.1 hk
  rw [hc _ (by unfold inYears at *; omega) (by unfold msPerDay; omega)]

/-- C2 on Scenario A: records on 2024-01-01 (twice) and 2024-01-03 (once), `days=3` on
2024-01-03, server on UTC. -/
theorem c2_counts_witness :
    (1 : Int) ≤ statsDays (some "3")
      ∧ inYears (Day 1704283200123 - (statsDays (some "3") - 1))
      ∧ inYears (Day 1704283200123)
      ∧ statsHandler (fixedZone 0) 1704283200123 (runPipeline scenarioA) (some "3")
        = StatsResponse.json [⟨"2024-01-01", 2⟩, ⟨"2024-01-02", 0⟩, ⟨"2024-01-03", 1⟩] :=
  ⟨by decide, by decide, by decide,
    (c2_counts 0 1704283200123 (some "3") scenarioA (by decide) (by decide) (by decide)
      (by decide)).trans (by decide)⟩

/-! ### C3: the densify step -/

/-- C3: the densify step on its own, for every sparse result `agg`, every zone and every
window whose dates the loop can compute (`windowDates`).  The output has `days` points,
one for each date of the window, in order; a date of the window that `agg` holds appears with the
count `agg` holds for it (that of the first row with that date, the only one when the
dates of `agg` are distinct); a date of the window that `agg` does not hold appears with
count 0; nothing else is in the output, and the rows of `agg` dated outside the window
can be removed without changing it. -/
theorem c3_densify (z : Zone) (start : Option Int) (days : Int) (agg : List AggRow)
    (ds : List String) (hw : windowDates z start days = some ds) :
    ∃ out, densify z start agg days = some out
      ∧ out.length = days.toNat
      ∧ out.map DaySeriesPoint.date = ds
      ∧ (∀ s ∈ ds, ∀ a : AggRow, agg.find? (fun a => a._id == s) = some a →
          (⟨s, a.count⟩ : DaySeriesPoint) ∈ out)
      ∧ ((agg.map AggRow._id).Nodup → ∀ a ∈ agg, a._id ∈ ds →
          (⟨a._id, a.count⟩ : DaySeriesPoint) ∈ out)
      ∧ (∀ s ∈ ds, s ∉ agg.map AggRow._id → (⟨s, 0⟩ : DaySeriesPoint) ∈ out)
      ∧ (∀ p ∈ out, p.date ∈ ds ∧ p.count = lookupCount agg p.date)
      ∧ densify z start (agg.filter (fun a => decide (a._id ∈ ds))) days = some out := by
  refine ⟨ds.map (loopPoint agg), by rw [densify_eq, hw]; rfl, ?_, ?_, ?_, ?_, ?_, ?_, ?_⟩
  · rw [List.length_map]
    exact datesFrom_length z start _ _ _ hw
  · rw [List.map_map]
    exact List.map_id'' (fun s => rfl) ds
  · intro s hs a ha
    refine List.mem_map.2 ⟨s, hs, ?_⟩
    rw [loopPoint_eq, lookupCount_of_find agg s a ha]
  · intro hn a ha hd
    refine List.mem_map.2 ⟨a._id, hd, ?_⟩
    rw [loopPoint_eq, lookupCount_of_mem agg a hn ha]
  · intro s hs hno
    refine List.mem_map.2 ⟨s, hs, ?_⟩
    rw [loopPoint_eq, lookupCount_of_not_mem agg s hno]
  · intro p hp
    obtain ⟨s, hs, rfl⟩ := List.mem_map.1 hp
    exact ⟨hs, rfl⟩
  · rw [densify_eq, hw]
    simp only [Option.map]
    congr 1
    apply List.map_congr_left
    intro s hs
    rw [loopPoint_eq, loopPoint_eq, lookupCount_filter agg ds s hs]

/-- C3 on the window of Scenario A, server on UTC, with a row dated outside the
window: the output is that of Scenario A. -/
theorem c3_densify_witness :
    windowDates (fixedZone 0) (some 1704067200000) 3
        = some ["2024-01-01", "2024-01-02", "2024-01-03"]
      ∧ ∃ out, densify (fixedZone 0) (some 1704067200000)
            [⟨"2023-12-25", 9⟩, ⟨"2024-01-01", 2⟩, ⟨"2024-01-03", 1⟩] 3 = some out
          ∧ out.map DaySeriesPoint.date = ["2024-01-01", "2024-01-02", "2024-01-03"] := by
  refine ⟨by decide, ?_⟩
  obtain ⟨out, ho, _, hm, _⟩ := c3_densify (fixedZone 0) (some 1704067200000) 3
    [⟨"2023-12-25", 9⟩, ⟨"2024-01-01", 2⟩, ⟨"2024-01-03", 1⟩]
    ["2024-01-01", "2024-01-02", "2024-01-03"] (by decide)
  exact ⟨out, ho, hm⟩

/-! ### C4: the result cap -/

/-- C4 as stated fails: `limit=-5` parses to the truthy number -5, which is the cap
passed to the store; the default 100 is not applied. -/
theorem c4_negative_limit_not_defaulted :
    parseInt (some "-5") = some (-5) ∧ listLimit (some "-5") = -5
      ∧ listLimit (some "-5") ≠ 100 := by decide

/-- C4 amended: the cap `L` is 100 when `limit` is absent, is non-numeric or otherwise
does not parse (`NaN`), or parses to zero, and is the parsed integer `n` whenever `n` is
not zero, negative `n` included; so `"0"` and `"abc"` give 100, `"7"` gives 7 and `"-5"`
gives -5. -/
theorem c4_listLimit (limit : Option String) :
    (limit = none → listLimit limit = 100)
      ∧ (∀ s : String, limit = some s → nonNumeric s → listLimit limit = 100)
      ∧ (parseInt limit = none → listLimit limit = 100)
      ∧ (parseInt limit = some 0 → listLimit limit = 100)
      ∧ (∀ n : Int, parseInt limit = some n → n ≠ 0 → listLimit limit = n)
      ∧ listLimit (some "0") = 100 ∧ listLimit (some "abc") = 100
      ∧ listLimit (some "7") = 7 ∧ listLimit (some "-5") = -5 := by
  refine ⟨?_, ?_, ?_, ?_, ?_, by decide, by decide, by decide, by decide⟩
  · intro h; subst h; decide
  · intro s hs hn; subst hs; simp [listLimit, parseInt_nonNumeric s hn, orDefault]
  · intro h; simp [listLimit, h, orDefault]
  · intro h; simp [listLimit, h, orDefault]
  · intro n h hn; simp [listLimit, h, orDefault, hn]

/-! ### C5: the timestamp bounds -/

/-- C5: the timestamp predicate of the filter `q`.  A parameter is given when it is
present and not empty.  Given only `from`, `q.timestamp` has the key `$gte` and no
`$lte`; given only `to`, it has `$lte` and no `$gte`; given neither, `q` has no
`timestamp` key; given both, it has both keys.  The value under a key is
`new Date(parameter)`, the clipped result of `Date.parse` on the parameter. -/
theorem c5_timestamp_bounds (parse : String → Option Int) (fromQ toQ deviceId : Option String) :
    (truthy fromQ = true → truthy toQ = false →
        (buildQuery parse fromQ toQ deviceId).map QueryFilter.timestamp
          = some (some { gte := some (newDate parse fromQ), lte := none }))
      ∧ (truthy fromQ = false → truthy toQ = true →
        (buildQuery parse fromQ toQ deviceId).map QueryFilter.timestamp
          = some (some { gte := none, lte := some (newDate parse toQ) }))
      ∧ (truthy fromQ = false → truthy toQ = false →
        (buildQuery parse fromQ toQ deviceId).map QueryFilter.timestamp = some none)
      ∧ (truthy fromQ = true → truthy toQ = true →
        (buildQuery parse fromQ toQ deviceId).map QueryFilter.timestamp
          = some (some { gte := some (newDate parse fromQ), lte := some (newDate parse toQ) }))
      ∧ (∀ s : String, newDate parse (some s) = (parse s).bind TimeClip) := by
  rw [buildQuery_eq]
  refine ⟨?_, ?_, ?_, ?_, fun s => rfl⟩ <;> intro hf ht <;> simp [hf, ht]

/-- C5 at `from=2024-01-01`, no `to`: the filter is `{ timestamp: { $gte: d } }` with
`d` the instant 2024-01-01T00:00:00.000Z. -/
theorem c5_timestamp_bounds_witness :
    truthy (some "2024-01-01") = true ∧ truthy none = false
      ∧ (buildQuery parseIsoUtc (some "2024-01-01") none none).map QueryFilter.timestamp
          = some (some { gte := some (some 1704067200000), lte := none }) :=
  ⟨by decide, by decide,
    ((c5_timestamp_bounds parseIsoUtc (some "2024-01-01") none none).1
      (by decide) (by decide)).trans (by decide)⟩

/-! ### C6: malformed dates -/

/-- C6 as stated fails: `from=not-a-date` does not parse, yet the filter gets the key
`timestamp` with `$gte` set to the Invalid Date; it is not the filter `{}` built when
`from` is absent. -/
theorem c6_malformed_from_sets_bound :
    parseIsoUtc "not-a-date" = none
      ∧ buildQuery parseIsoUtc (some "not-a-date") none none
          = some { deviceId := none, timestamp := some { gte := some none, lte := none } }
      ∧ buildQuery parseIsoUtc none none none = some { deviceId := none, timestamp := none }
      ∧ buildQuery parseIsoUtc (some "not-a-date") none none
          ≠ buildQuery parseIsoUtc none none none := by decide

/-- C6 amended: building the filter never fails, whatever the parameters; a `from`
(resp. `to`) that is not empty and does not parse gives a filter whose `$gte` (resp.
`$lte`) is the Invalid Date, which differs from the filter built when the parameter is
absent; only the empty string gives the same filter as an absent parameter. -/
theorem c6_malformed_dates (parse : String → Option Int) (fromQ toQ deviceId : Option String) :
    (∃ q, buildQuery parse fromQ toQ deviceId = some q)
      ∧ (∀ s : String, fromQ = some s → s.data ≠ [] → parse s = none →
          (∃ q ts, buildQuery parse fromQ toQ deviceId = some q ∧ q.timestamp = some ts
            ∧ ts.gte = some none)
          ∧ buildQuery parse fromQ toQ deviceId ≠ buildQuery parse none toQ deviceId)
      ∧ (∀ s : String, toQ = some s → s.data ≠ [] → parse s = none →
          (∃ q ts, buildQuery parse fromQ toQ deviceId = some q ∧ q.timestamp = some ts
            ∧ ts.lte = some none)
          ∧ buildQuery parse fromQ toQ deviceId ≠ buildQuery parse fromQ none deviceId)
      ∧ (fromQ = some "" →
          buildQuery parse fromQ toQ deviceId = buildQuery parse none toQ deviceId)
      ∧ (toQ = some "" →
          buildQuery parse fromQ toQ deviceId = buildQuery parse fromQ none deviceId) := by
  simp only [buildQuery_eq]
  refine ⟨⟨_, rfl⟩, ?_, ?_, ?_, ?_⟩
  · intro s hs hne hp
    subst hs
    have ht : truthy (some s) = true := (truthy_some s).2 hne
    have hd : newDate parse (some s) = none := by simp [newDate, hp]
    simp only [ht, hd, Bool.true_or, if_true]
    refine ⟨⟨_, _, rfl, rfl, rfl⟩, ?_⟩
    cases h2 : truthy toQ <;> simp [truthy_none]
  · intro s hs hne hp
    subst hs
    have ht : truthy (some s) = true := (truthy_some s).2 hne
    have hd : newDate parse (some s) = none := by simp [newDate, hp]
    simp only [ht, hd, Bool.or_true, if_true]
    refine ⟨⟨_, _, rfl, rfl, rfl⟩, ?_⟩
    cases h2 : truthy fromQ <;> simp [truthy_none]
  · intro h; subst h
    have : truthy (some "") = false := by decide
    simp [this, truthy_none]
  · intro h; subst h
    have : truthy (some "") = false := by decide
    simp [this, truthy_none]

/-! ### C7: the window start -/

/-- C7 as stated fails: with `days=1000000000` the day that lies `days - 1` days before
today is outside the range of `Date`, and `start` is the Invalid Date. -/
theorem c7_start_invalid_for_huge_days :
    statsDays (some "1000000000") = 1000000000
      ∧ statsStart (fixedZone 0) 1704283200123 (statsDays (some "1000000000")) = none := by
  decide

/-- C7 amended: in a server zone with a constant offset from UTC, for every `days >= 1`
and every reading `now` of the clock such that 00:00:00.000 UTC of the day `days - 1` days
before the UTC date of `now` is in the range of `Date`, `start` is exactly that instant:
a multiple of a day, `days - 1` days before the day of `now`; and it is the bound the
store query is made with, the response depending on the store only through it. -/
theorem c7_window_start (c now days : Int) (_hdays : 1 ≤ days) (hnow : validTime now)
    (hstart : validTime ((Day now - (days - 1)) * msPerDay)) :
    statsStart (fixedZone c) now days = some ((Day now - (days - 1)) * msPerDay)
      ∧ TimeWithinDay ((Day now - (days - 1)) * msPerDay) = 0
      ∧ Day ((Day now - (days - 1)) * msPerDay) = Day now - (days - 1)
      ∧ (∀ (daysParam : Option String) (agg1 agg2 : Option Int → Option (List AggRow)),
          statsDays daysParam = days →
          agg1 (some ((Day now - (days - 1)) * msPerDay))
            = agg2 (some ((Day now - (days - 1)) * msPerDay)) →
          statsHandler (fixedZone c) now agg1 daysParam
            = statsHandler (fixedZone c) now agg2 daysParam) := by
  have hs : statsStart (fixedZone c) now days = some ((Day now - (days - 1)) * msPerDay) := by
    rw [statsStart_fixed c now days hnow, TimeClip_valid hstart]
  refine ⟨hs, ?_, Day_mul_msPerDay _, ?_⟩
  · unfold TimeWithinDay msPerDay; omega
  · intro p agg1 agg2 hp he
    unfold statsHandler
    simp only [hp, hs, he]

/-- C7 at `days = 3` on 2024-01-03T12:00:00.123Z, server on UTC: `start` is
2024-01-01T00:00:00.000Z. -/
theorem c7_window_start_witness :
    (1 : Int) ≤ 3 ∧ validTime 1704283200123
      ∧ validTime ((Day 1704283200123 - (3 - 1)) * msPerDay)
      ∧ statsStart (fixedZone 0) 1704283200123 3 = some 1704067200000 :=
  ⟨by decide, by decide, by decide,
    (c7_window_start 0 1704283200123 3 (by decide) (by decide) (by decide)).1.trans
      (by decide)⟩

/-! ### C8: the default window -/

/-- C8 fails on a server whose zone has daylight saving time.  With no `days` parameter
on 2024-11-10T12:00:00Z in the zone `easternFall2024` the window size is 14, but `start`
is 2024-10-27T23:00:00Z and the 14 points are not one for each of the 14 consecutive
days ending today: 2024-10-27 is there, 2024-10-28 is second and 2024-11-03 is missing. -/
theorem c8_default_window_skips_a_day_across_dst :
    statsDays none = 14
      ∧ statsStart easternFall2024 1731240000000 14 = some 1730070000000
      ∧ statsHandler easternFall2024 1731240000000 (fun _ => some []) none
        = StatsResponse.json
            [⟨"2024-10-27", 0⟩, ⟨"2024-10-28", 0⟩, ⟨"2024-10-29", 0⟩, ⟨"2024-10-30", 0⟩,
              ⟨"2024-10-31", 0⟩, ⟨"2024-11-01", 0⟩, ⟨"2024-11-02", 0⟩, ⟨"2024-11-04", 0⟩,
              ⟨"2024-11-05", 0⟩, ⟨"2024-11-06", 0⟩, ⟨"2024-11-07", 0⟩, ⟨"2024-11-08", 0⟩,
              ⟨"2024-11-09", 0⟩, ⟨"2024-11-10", 0⟩] := by
  decide

/-! ### C9: validation of the write -/

/-- C9: a body in which `deviceId` or `timestamp` is missing is answered with 400 and the
store is left as it was, whatever `save` and `new Date` would do. -/
theorem c9_missing_field_rejected {S σ : Type} (toDate : Json → Option Int)
    (save : NewEntry → S → Option (σ × S)) (body : PostBody) (st : S)
    (h : body.deviceId = none ∨ body.timestamp = none) :
    postHandler toDate save body st = (PostResponse.badRequest, st) := by
  unfold postHandler
  rcases h with h | h <;> simp [h, jsonTruthy]

/-- C9 on Scenario B: a body without `deviceId`, an empty store and a `save` that would
append the entry. -/
theorem c9_missing_field_rejected_witness :
    (bodyWithoutDeviceId.deviceId = none ∨ bodyWithoutDeviceId.timestamp = none)
      ∧ postHandler (fun _ => some 1704283200123)
          (fun (e : NewEntry) (st : List NewEntry) => some (e, st ++ [e]))
          bodyWithoutDeviceId []
        = (PostResponse.badRequest, []) :=
  ⟨Or.inl rfl, c9_missing_field_rejected _ _ _ _ (Or.inl rfl)⟩

/-! ### C10: a negative window -/

/-- C10 as stated fails in its last part: with `days=-1000000000` the instant
`1 - days` days after today's UTC midnight is outside the range of `Date`, and `start`
is the Invalid Date, not an instant in the future. -/
theorem c10_start_invalid_for_huge_negative_days :
    parseInt (some "-1000000000") = some (-1000000000)
      ∧ statsStart (fixedZone 0) 1704283200123 (statsDays (some "-1000000000")) = none := by
  decide

/-- C10 amended: when `days` parses to a negative integer the default 14 is not applied,
the loop makes no iteration, and the handler answers the empty array whenever the store
answers; in a server zone with a constant offset `start` is the instant `1 - days` days
after today's UTC midnight, which is after `now`, provided that instant is in the range
of `Date`, and the Invalid Date otherwise. -/
theorem c10_negative_days (c now days : Int) (daysParam : Option String)
    (hparse : parseInt daysParam = some days) (hneg : days < 0) (hnow : validTime now) :
    statsDays daysParam = days
      ∧ statsDays daysParam ≠ 14
      ∧ (∀ (z : Zone) (start : Option Int) (rows : List AggRow) (fuel : Nat),
          densifyLoop z start rows days fuel 0 [] = some [])
      ∧ (∀ (z : Zone) (aggregate : Option Int → Option (List AggRow)) (rows : List AggRow),
          aggregate (statsStart z now days) = some rows →
          statsHandler z now aggregate daysParam = StatsResponse.json [])
      ∧ statsStart (fixedZone c) now days = TimeClip ((Day now + (1 - days)) * msPerDay)
      ∧ (validTime ((Day now + (1 - days)) * msPerDay) →
          statsStart (fixedZone c) now days = some ((Day now + (1 - days)) * msPerDay)
            ∧ now < (Day now + (1 - days)) * msPerDay) := by
  have hd : statsDays daysParam = days := by
    simp [statsDays, hparse, orDefault, ne_of_lt hneg]
  have hs : statsStart (fixedZone c) now days = TimeClip ((Day now + (1 - days)) * msPerDay) := by
    rw [statsStart_fixed c now days hnow]
    congr 1; ring
  refine ⟨hd, by omega, ?_, ?_, hs, ?_⟩
  · intro z start rows fuel
    exact densifyLoop_nonpos z start rows days (le_of_lt hneg) fuel
  · intro z aggregate rows hagg
    unfold statsHandler
    simp only [hd, hagg, densify, densifyLoop_nonpos z _ rows days (le_of_lt hneg)]
  · intro hv
    refine ⟨by rw [hs, TimeClip_valid hv], ?_⟩
    unfold Day msPerDay; omega

/-- C10 at `days=-3` on 2024-01-03T12:00:00.123Z, server on UTC: `start` is
2024-01-07T00:00:00.000Z and the answer is the empty array. -/
theorem c10_negative_days_witness :
    parseInt (some "-3") = some (-3) ∧ (-3 : Int) < 0 ∧ validTime 1704283200123
      ∧ statsDays (some "-3") = -3
      ∧ statsStart (fixedZone 0) 1704283200123 (-3) = some 1704585600000 :=
  ⟨by decide, by decide, by decide,
    (c10_negative_days 0 1704283200123 (-3) (some "-3") (by decide) (by decide)
      (by decide)).1,
    ((c10_negative_days 0 1704283200123 (-3) (some "-3") (by decide) (by decide)
      (by decide)).2.2.2.2.1).trans (by decide)⟩

end Server
